import Mathlib

/-!
Player locomotion state machine (`src/State/player_states.{hpp,cpp}`) and
skill tree (`src/skilltree/skilltree.cpp`).

A shallow embedding of the six `PlayerState` classes and of the part of
`Player` they read and write, followed by one of the nodes of the skill tree
and of `AbstructSkillTree`; the conventions of the skill tree are given where
its definitions start.

Conventions of the embedding

* C++ `float` quantities are carried as exact rationals (`ℚ`): rounding,
  overflow and NaN of binary32 arithmetic are not represented.
* A method `void C::m(Player *player, ...)` becomes a function that takes the
  fields of `this` it reads or writes, then the player, and returns the player
  after the call. While a method runs, `this` is the object held in
  `player.mState`; a write to a field of `this` is a write to `player.mState`,
  and a virtual call on `this` dispatches on `player.mState`. No method reads,
  writes or dispatches on `this` after it has called `setState`.
* `sf::Keyboard::isKeyPressed` reads global input state; it becomes an
  explicit argument `kb : Keyboard`.
* The `std::cout` lines of the constructors are not represented.
-/

set_option linter.dupNamespace false
set_option linter.unusedTactic false

/-! ## SFML value types -/

/-- `sf::Vector2f`. -/
structure Vector2f where
  x : ℚ
  y : ℚ
  deriving DecidableEq

/-- `sf::FloatRect(left, top, width, height)`. -/
structure FloatRect where
  left : ℚ
  top : ℚ
  width : ℚ
  height : ℚ
  deriving DecidableEq

/-- `sf::IntRect`, the texture rectangles handed to `addTextureRect`. -/
structure IntRect where
  left : Int
  top : Int
  width : Int
  height : Int
  deriving DecidableEq

/-- The key codes of `sf::Keyboard::Key` the state machine distinguishes; every
other key code is `Other`. -/
inductive Key where
  | Left
  | Right
  | Space
  | LShift
  | Down
  | Other
  deriving DecidableEq

/-- The `sf::Event::EventType` values the state machine distinguishes. -/
inductive EventType where
  | KeyPressed
  | KeyReleased
  | Other
  deriving DecidableEq

/-- `sf::Event`, reduced to `event.type` and `event.key.code`. -/
structure Event where
  type : EventType
  code : Key
  deriving DecidableEq

/-- The global keyboard state queried through `sf::Keyboard::isKeyPressed`. -/
abbrev Keyboard := Key → Bool

/-! ## Animation -/

/-- `Animation::AnimationType`. -/
inductive AnimationType where
  | Loop
  | OneIteration
  deriving DecidableEq

/-- The calls the states make on their `Animation`. -/
inductive AnimationCall where
  | setAnimationSpeed (speed : ℚ)
  | addTextureRect (rect : IntRect)
  | update (dt : ℚ)
  deriving DecidableEq

/-- Modelled from the spec: class `Animation` (`animation.hpp` is not among the
sources). The spec describes it as a loop policy, a playback speed, an ordered
sequence of frame regions, and an elapsed-time accumulator and frame index that
are advanced by `update(dt)`. The object is represented by its constructor
argument and the calls made on it since construction, oldest first; every one
of those quantities is a function of that record. -/
structure Animation where
  mType : AnimationType
  calls : List AnimationCall
  deriving DecidableEq

def Animation.setAnimationSpeed (a : Animation) (speed : ℚ) : Animation :=
  { a with calls := a.calls ++ [AnimationCall.setAnimationSpeed speed] }

def Animation.addTextureRect (a : Animation) (rect : IntRect) : Animation :=
  { a with calls := a.calls ++ [AnimationCall.addTextureRect rect] }

def Animation.update (a : Animation) (dt : ℚ) : Animation :=
  { a with calls := a.calls ++ [AnimationCall.update dt] }

/-- The constructor `Animation(type)`; `Animation()` is `Animation(Loop)`, the
policy the spec gives for the animations built without an argument. -/
def Animation.Animation (type : AnimationType) : Animation :=
  { mType := type, calls := [] }

/-! ## Player and its states -/

/-- The six concrete subclasses of `PlayerState`, each with its data members
(`mAnimation` is inherited from the base class). -/
inductive PlayerState where
  | Idle (mAnimation : Animation)
  | Running (mAnimation : Animation) (mRunningSpeed : ℚ)
  | Sliding (mAnimation : Animation) (mCurrentTime : ℚ)
  | Falling (mAnimation : Animation) (jumpCount : Nat)
  | Hooked (mAnimation : Animation)
  | Sitting (mAnimation : Animation)
  deriving DecidableEq

/-- The dynamic type of a state object. -/
inductive StateKind where
  | Idle
  | Running
  | Sliding
  | Falling
  | Hooked
  | Sitting
  deriving DecidableEq

def PlayerState.kind : PlayerState → StateKind
  | .Idle _ => .Idle
  | .Running _ _ => .Running
  | .Sliding _ _ => .Sliding
  | .Falling _ _ => .Falling
  | .Hooked _ => .Hooked
  | .Sitting _ => .Sitting

/-- The members of `Player` that `player_states.cpp` reads and writes
(`player.hpp` is not among the sources; names and types are taken from their
uses). `mState` is the active state. -/
structure Player where
  mPosition : Vector2f
  mVelocity : Vector2f
  mIsFacedRight : Bool
  mCollisionRect : FloatRect
  mIsColliding : Bool
  mState : PlayerState
  deriving DecidableEq

/-- Modelled from the spec: `Player::setState` (`player.hpp` is not among the
sources): "destroys the previous state and installs `newState` as active". -/
def Player.setState (player : Player) (newState : PlayerState) : Player :=
  { player with mState := newState }

/-! ### Constants of `player_states.hpp` -/

def PlayerState.kJumpingVelocity : ℚ := 1500
def PlayerState.kSubJumpingVelocity : ℚ := 1000
def Sliding.kSlidingTime : ℚ := 0.50
def Sliding.kVelocityMultiplier : ℚ := 2.5
def Sliding.kVelocityDecay : ℚ := 0.99
def Falling.kHorizontalVelocity : ℚ := 800

/-! ### Constructors

`new C(player)` writes to the player and yields the new state object: the
constructors return the pair of the object and the player after the writes. -/

def Idle.Idle (player : Player) : PlayerState × Player :=
  let player := { player with mVelocity := ⟨0, 0⟩ }
  let mAnimation := Animation.Animation AnimationType.Loop
  let mAnimation := mAnimation.setAnimationSpeed 6
  let mAnimation := mAnimation.addTextureRect ⟨14, 6, 21, 30⟩
  let mAnimation := mAnimation.addTextureRect ⟨64, 6, 21, 30⟩
  let mAnimation := mAnimation.addTextureRect ⟨114, 6, 21, 30⟩
  let mAnimation := mAnimation.addTextureRect ⟨164, 6, 21, 30⟩
  let player := { player with mCollisionRect := ⟨-40, -60, 80, 120⟩ }
  (PlayerState.Idle mAnimation, player)

def Running.Running (player : Player) : PlayerState × Player :=
  let mRunningSpeed : ℚ := 900
  let mAnimation := Animation.Animation AnimationType.Loop
  let mAnimation := mAnimation.setAnimationSpeed 12
  let mAnimation := mAnimation.addTextureRect ⟨67, 45, 20, 27⟩
  let mAnimation := mAnimation.addTextureRect ⟨116, 46, 20, 27⟩
  let mAnimation := mAnimation.addTextureRect ⟨166, 48, 20, 27⟩
  let mAnimation := mAnimation.addTextureRect ⟨217, 45, 20, 27⟩
  let mAnimation := mAnimation.addTextureRect ⟨266, 46, 20, 27⟩
  let mAnimation := mAnimation.addTextureRect ⟨316, 48, 20, 27⟩
  let player := { player with mCollisionRect := ⟨-40, -60, 80, 120⟩ }
  (PlayerState.Running mAnimation mRunningSpeed, player)

def Sliding.Sliding (player : Player) : PlayerState × Player :=
  let player := { player with
    mVelocity := { player.mVelocity with x := player.mVelocity.x * Sliding.kVelocityMultiplier } }
  let mAnimation := Animation.Animation AnimationType.OneIteration
  let mAnimation := mAnimation.setAnimationSpeed 10
  let mAnimation := mAnimation.addTextureRect ⟨155, 119, 34, 28⟩
  let mAnimation := mAnimation.addTextureRect ⟨205, 119, 34, 28⟩
  let mAnimation := mAnimation.addTextureRect ⟨255, 119, 34, 28⟩
  let mAnimation := mAnimation.addTextureRect ⟨307, 119, 34, 28⟩
  let mAnimation := mAnimation.addTextureRect ⟨9, 156, 34, 28⟩
  let player := { player with mCollisionRect := ⟨-80, -20, 160, 80⟩ }
  let mCurrentTime := Sliding.kSlidingTime
  (PlayerState.Sliding mAnimation mCurrentTime, player)

/-- The member initialiser `unsigned jumpCount = 0` is part of construction. -/
def Falling.Falling (player : Player) : PlayerState × Player :=
  let jumpCount : Nat := 0
  let mAnimation := Animation.Animation AnimationType.Loop
  let mAnimation := mAnimation.setAnimationSpeed 12
  let mAnimation := mAnimation.addTextureRect ⟨321, 155, 15, 26⟩
  let player := { player with mCollisionRect := ⟨-40, -60, 80, 120⟩ }
  (PlayerState.Falling mAnimation jumpCount, player)

def Hooked.Hooked (player : Player) : PlayerState × Player :=
  let mAnimation := Animation.Animation AnimationType.OneIteration
  let mAnimation := mAnimation.setAnimationSpeed 12
  let mAnimation := mAnimation.addTextureRect ⟨70, 151, 16, 34⟩
  let mAnimation := mAnimation.addTextureRect ⟨119, 151, 16, 34⟩
  let mAnimation := mAnimation.addTextureRect ⟨169, 151, 16, 34⟩
  let mAnimation := mAnimation.addTextureRect ⟨219, 151, 16, 34⟩
  let player := { player with mCollisionRect := ⟨-40, -60, 80, 120⟩ }
  (PlayerState.Hooked mAnimation, player)

def Sitting.Sitting (player : Player) : PlayerState × Player :=
  let player := { player with mVelocity := ⟨0, 0⟩ }
  let mAnimation := Animation.Animation AnimationType.Loop
  let mAnimation := mAnimation.setAnimationSpeed 6
  let mAnimation := mAnimation.addTextureRect ⟨214, 6, 21, 30⟩
  let mAnimation := mAnimation.addTextureRect ⟨264, 6, 21, 30⟩
  let mAnimation := mAnimation.addTextureRect ⟨314, 6, 21, 30⟩
  let mAnimation := mAnimation.addTextureRect ⟨14, 43, 21, 30⟩
  let player := { player with mCollisionRect := ⟨-40, -60, 80, 120⟩ }
  (PlayerState.Sitting mAnimation, player)

/-- The statement `player->setState(new C(player))`: the constructor runs on
the player first, then the new object is installed. -/
def Player.setStateNew (player : Player) (ctor : Player → PlayerState × Player) : Player :=
  (ctor player).2.setState (ctor player).1

/-! ### `startFalling` and `jump` -/

def Idle.startFalling (player : Player) : Player :=
  player.setStateNew Falling.Falling

def Running.startFalling (player : Player) : Player :=
  player.setStateNew Falling.Falling

def Sliding.startFalling (player : Player) : Player := player

def Falling.startFalling (player : Player) : Player := player

def Hooked.startFalling (player : Player) : Player :=
  player.setStateNew Falling.Falling

def Sitting.startFalling (player : Player) : Player :=
  player.setStateNew Falling.Falling

/-- Virtual dispatch of `startFalling` on the active state. -/
def PlayerState.startFalling (player : Player) : Player :=
  match player.mState with
  | .Idle _ => Idle.startFalling player
  | .Running _ _ => Running.startFalling player
  | .Sliding _ _ => Sliding.startFalling player
  | .Falling _ _ => Falling.startFalling player
  | .Hooked _ => Hooked.startFalling player
  | .Sitting _ => Sitting.startFalling player

/-- The non-virtual helper `PlayerState::jump`; its `startFalling(player)` is a
virtual call on `this`, the active state. -/
def PlayerState.jump (player : Player) (jumpingVelocity : ℚ) : Player :=
  let player := { player with mPosition := { player.mPosition with y := player.mPosition.y - 1 } }
  let player := { player with mVelocity := { player.mVelocity with y := -jumpingVelocity } }
  PlayerState.startFalling player

/-! ### `update` -/

def Idle.update (mAnimation : Animation) (player : Player) (kb : Keyboard) (dt : ℚ) : Player :=
  let player := { player with mState := PlayerState.Idle (mAnimation.update dt) }
  if kb Key.Left || kb Key.Right then
    player.setStateNew Running.Running
  else player

def Running.update (mAnimation : Animation) (mRunningSpeed : ℚ) (player : Player)
    (kb : Keyboard) (dt : ℚ) : Player :=
  let player := { player with mState := PlayerState.Running (mAnimation.update dt) mRunningSpeed }
  let player :=
    if kb Key.Left then
      { player with
        mVelocity := { player.mVelocity with x := -mRunningSpeed }
        mIsFacedRight := false }
    else player
  let player :=
    if kb Key.Right then
      { player with
        mVelocity := { player.mVelocity with x := mRunningSpeed }
        mIsFacedRight := true }
    else player
  player

def Sliding.update (mAnimation : Animation) (mCurrentTime : ℚ) (player : Player)
    (dt : ℚ) : Player :=
  let mAnimation := mAnimation.update dt
  let player := { player with
    mVelocity := { player.mVelocity with x := player.mVelocity.x * Sliding.kVelocityDecay } }
  let mCurrentTime := mCurrentTime - dt
  let player := { player with mState := PlayerState.Sliding mAnimation mCurrentTime }
  if mCurrentTime < 0 && player.mIsColliding then
    player.setStateNew Idle.Idle
  else player

def Falling.update (mAnimation : Animation) (jumpCount : Nat) (player : Player)
    (kb : Keyboard) (dt : ℚ) : Player :=
  let player := { player with mState := PlayerState.Falling (mAnimation.update dt) jumpCount }
  let player :=
    if kb Key.Left then
      { player with
        mVelocity := { player.mVelocity with x := -Falling.kHorizontalVelocity }
        mIsFacedRight := false }
    else player
  let player :=
    if kb Key.Right then
      { player with
        mVelocity := { player.mVelocity with x := Falling.kHorizontalVelocity }
        mIsFacedRight := true }
    else player
  player

def Hooked.update (mAnimation : Animation) (player : Player) (dt : ℚ) : Player :=
  let player := { player with mVelocity := ⟨0, 0⟩ }
  { player with mState := PlayerState.Hooked (mAnimation.update dt) }

def Sitting.update (mAnimation : Animation) (player : Player) (kb : Keyboard) (dt : ℚ) : Player :=
  let player := { player with mState := PlayerState.Sitting (mAnimation.update dt) }
  if kb Key.Left || kb Key.Right then
    player.setStateNew Running.Running
  else player

/-- Virtual dispatch of `update` on the active state. -/
def PlayerState.update (player : Player) (kb : Keyboard) (dt : ℚ) : Player :=
  match player.mState with
  | .Idle a => Idle.update a player kb dt
  | .Running a s => Running.update a s player kb dt
  | .Sliding a t => Sliding.update a t player dt
  | .Falling a j => Falling.update a j player kb dt
  | .Hooked a => Hooked.update a player dt
  | .Sitting a => Sitting.update a player kb dt

/-! ### `handleEvents`

A `return` inside a handler becomes the end of the corresponding branch. -/

def Idle.handleEvents (player : Player) (event : Event) : Player :=
  if event.type = EventType.KeyPressed then
    let player :=
      if event.code = Key.Left ∨ event.code = Key.Right then
        player.setStateNew Running.Running
      else player
    if event.code = Key.LShift then
      player.setStateNew Sitting.Sitting
    else if event.code = Key.Space then
      PlayerState.jump player PlayerState.kJumpingVelocity
    else player
  else player

def Running.handleEvents (player : Player) (kb : Keyboard) (event : Event) : Player :=
  if event.type = EventType.KeyPressed ∧ event.code = Key.Space then
    PlayerState.jump player PlayerState.kJumpingVelocity
  else
    let player :=
      if event.type = EventType.KeyPressed then
        if event.code = Key.LShift then
          player.setStateNew Sliding.Sliding
        else player
      else player
    if event.type = EventType.KeyReleased then
      let player :=
        if event.code = Key.Left ∧ ¬ kb Key.Right then
          let player := player.setStateNew Idle.Idle
          { player with mVelocity := { player.mVelocity with x := 0 } }
        else player
      let player :=
        if event.code = Key.Right ∧ ¬ kb Key.Left then
          let player := player.setStateNew Idle.Idle
          { player with mVelocity := { player.mVelocity with x := 0 } }
        else player
      player
    else player

def Sliding.handleEvents (player : Player) (event : Event) : Player :=
  if event.type = EventType.KeyPressed then
    let player :=
      if event.code = Key.Left ∨ event.code = Key.Right then
        player.setStateNew Running.Running
      else player
    if event.code = Key.Space ∧ player.mIsColliding then
      let player := PlayerState.jump player PlayerState.kJumpingVelocity
      player.setStateNew Falling.Falling
    else player
  else player

def Falling.handleEvents (mAnimation : Animation) (jumpCount : Nat) (player : Player)
    (event : Event) : Player :=
  if event.type = EventType.KeyPressed then
    if jumpCount = 0 ∧ event.code = Key.Space then
      let player := PlayerState.jump player PlayerState.kSubJumpingVelocity
      let jumpCount := 1
      { player with mState := PlayerState.Falling mAnimation jumpCount }
    else player
  else player

def Hooked.handleEvents (player : Player) (event : Event) : Player :=
  if event.type = EventType.KeyPressed then
    if event.code = Key.Space then
      PlayerState.jump player PlayerState.kJumpingVelocity
    else if event.code = Key.Down then
      let player := { player with
        mVelocity := { player.mVelocity with x := if player.mIsFacedRight then -100 else 100 } }
      player.setStateNew Falling.Falling
    else player
  else player

def Sitting.handleEvents (player : Player) (kb : Keyboard) (event : Event) : Player :=
  if event.type = EventType.KeyPressed ∧ event.code = Key.Space then
    PlayerState.jump player PlayerState.kJumpingVelocity
  else
    if event.type = EventType.KeyReleased then
      let player :=
        if event.code = Key.Left ∧ ¬ kb Key.Right then
          let player := player.setStateNew Idle.Idle
          { player with mVelocity := { player.mVelocity with x := 0 } }
        else player
      let player :=
        if event.code = Key.Right ∧ ¬ kb Key.Left then
          let player := player.setStateNew Idle.Idle
          { player with mVelocity := { player.mVelocity with x := 0 } }
        else player
      let player :=
        if event.code = Key.LShift then
          let player := player.setStateNew Idle.Idle
          { player with mVelocity := ⟨0, 0⟩ }
        else player
      player
    else player

/-- Virtual dispatch of `handleEvents` on the active state. -/
def PlayerState.handleEvents (player : Player) (kb : Keyboard) (event : Event) : Player :=
  match player.mState with
  | .Idle _ => Idle.handleEvents player event
  | .Running _ _ => Running.handleEvents player kb event
  | .Sliding _ _ => Sliding.handleEvents player event
  | .Falling a j => Falling.handleEvents a j player event
  | .Hooked _ => Hooked.handleEvents player event
  | .Sitting _ => Sitting.handleEvents player kb event

/-! ### `hook`, `attacked`, `hitGround` -/

def Idle.hook (player : Player) : Player := player
def Running.hook (player : Player) : Player := player
def Sliding.hook (player : Player) : Player := player
def Falling.hook (player : Player) : Player := player.setStateNew Hooked.Hooked
def Hooked.hook (player : Player) : Player := player
def Sitting.hook (player : Player) : Player := player

/-- Virtual dispatch of `hook` on the active state. -/
def PlayerState.hook (player : Player) : Player :=
  match player.mState with
  | .Idle _ => Idle.hook player
  | .Running _ _ => Running.hook player
  | .Sliding _ _ => Sliding.hook player
  | .Falling _ _ => Falling.hook player
  | .Hooked _ => Hooked.hook player
  | .Sitting _ => Sitting.hook player

def Idle.attacked (player : Player) : Player := player
def Running.attacked (player : Player) : Player := player
def Sliding.attacked (player : Player) : Player := player
def Falling.attacked (player : Player) : Player := player
def Hooked.attacked (player : Player) : Player := player
def Sitting.attacked (player : Player) : Player := player

/-- Virtual dispatch of `attacked` on the active state. -/
def PlayerState.attacked (player : Player) : Player :=
  match player.mState with
  | .Idle _ => Idle.attacked player
  | .Running _ _ => Running.attacked player
  | .Sliding _ _ => Sliding.attacked player
  | .Falling _ _ => Falling.attacked player
  | .Hooked _ => Hooked.attacked player
  | .Sitting _ => Sitting.attacked player

def Idle.hitGround (player : Player) : Player := player
def Running.hitGround (player : Player) : Player := player
def Sliding.hitGround (player : Player) : Player := player
def Falling.hitGround (player : Player) : Player := player.setStateNew Idle.Idle
def Hooked.hitGround (player : Player) : Player := player.setStateNew Idle.Idle
def Sitting.hitGround (player : Player) : Player := player

/-- Virtual dispatch of `hitGround` on the active state. -/
def PlayerState.hitGround (player : Player) : Player :=
  match player.mState with
  | .Idle _ => Idle.hitGround player
  | .Running _ _ => Running.hitGround player
  | .Sliding _ _ => Sliding.hitGround player
  | .Falling _ _ => Falling.hitGround player
  | .Hooked _ => Hooked.hitGround player
  | .Sitting _ => Sitting.hitGround player

/-! ## Call sequences and sample configurations

The runs below drive the state machine the way `Player` does: one call after
another on the player the previous call left. -/

/-- A Space key-press event. -/
def spacePressed : Event := ⟨EventType.KeyPressed, Key.Space⟩

/-- A keyboard on which no key is held. -/
def noKeys : Keyboard := fun _ => false

/-- A run of `update` calls, one per frame, each with its own `dt` and its own
held keys. -/
def runUpdates (player : Player) (frames : List (ℚ × Keyboard)) : Player :=
  frames.foldl (fun p f => PlayerState.update p f.2 f.1) player

/-- A grounded player at (10, 20) with velocity (500, 50), facing right, whose
active state is a newly constructed Idle-animation state object. -/
def basePlayer : Player :=
  { mPosition := ⟨10, 20⟩, mVelocity := ⟨500, 50⟩, mIsFacedRight := true,
    mCollisionRect := ⟨-40, -60, 80, 120⟩, mIsColliding := true,
    mState := PlayerState.Idle (Animation.Animation AnimationType.Loop) }

/-- `basePlayer` after `setState(new Falling(player))`. -/
def fallingPlayer : Player := basePlayer.setStateNew Falling.Falling

/-- `basePlayer` after `setState(new Running(player))`: Running, facing right,
velocity.x = 500. -/
def runningPlayer : Player := basePlayer.setStateNew Running.Running

/-- `basePlayer` after `setState(new Sitting(player))`. -/
def sittingPlayer : Player := basePlayer.setStateNew Sitting.Sitting

/-- `basePlayer` after `setState(new Sliding(player))`. -/
def slidingPlayer : Player := basePlayer.setStateNew Sliding.Sliding

/-- `basePlayer` after `setState(new Hooked(player))`. -/
def hookedPlayer : Player := basePlayer.setStateNew Hooked.Hooked

/-- One call on the active state, as `Player` forwards it: the per-frame
`update`, the delivery of an input event, or one of the four notifications. -/
inductive Call where
  | update (kb : Keyboard) (dt : ℚ)
  | handleEvents (kb : Keyboard) (event : Event)
  | hook
  | attacked
  | startFalling
  | hitGround

/-- The player after the call `c` has been dispatched to the active state. -/
def Call.apply (c : Call) (player : Player) : Player :=
  match c with
  | .update kb dt => PlayerState.update player kb dt
  | .handleEvents kb event => PlayerState.handleEvents player kb event
  | .hook => PlayerState.hook player
  | .attacked => PlayerState.attacked player
  | .startFalling => PlayerState.startFalling player
  | .hitGround => PlayerState.hitGround player

/-- Whether the call delivers a Left or Right key-press event. -/
def Call.isDirectionPress : Call → Bool
  | .handleEvents _ event =>
    decide (event.type = EventType.KeyPressed ∧ (event.code = Key.Left ∨ event.code = Key.Right))
  | _ => false

/-- A run of calls, before each of which the collision system writes the
grounded flag `mIsColliding`; an entry is `(grounded, call)`. -/
def runCalls (player : Player) (calls : List (Bool × Call)) : Player :=
  calls.foldl (fun p c => c.2.apply { p with mIsColliding := c.1 }) player

/-- The constructor of the state class of the given dynamic type. -/
def StateKind.ctor : StateKind → Player → PlayerState × Player
  | .Idle => Idle.Idle
  | .Running => Running.Running
  | .Sliding => Sliding.Sliding
  | .Falling => Falling.Falling
  | .Hooked => Hooked.Hooked
  | .Sitting => Sitting.Sitting

/-- The collision box each constructor writes: `Sliding::Sliding` writes
[-80,-20,160,80], the other five write [-40,-60,80,120]. -/
def StateKind.collisionRect : StateKind → FloatRect
  | .Sliding => ⟨-80, -20, 160, 80⟩
  | _ => ⟨-40, -60, 80, 120⟩

/-- The members of a state object that the methods use. -/
inductive Member where
  | mAnimation
  | mRunningSpeed
  | mCurrentTime
  | jumpCount
  | jump
  | startFalling
  deriving DecidableEq

/-- One recorded step of a call: a use of a member of `this`, or
`player->setState(new K(player))`. -/
inductive Step where
  | use (m : Member)
  | setState (k : StateKind)
  deriving DecidableEq

/-- Sequencing of two statements: the second runs on the player the first
left, and its steps follow those of the first. -/
def Step.seq (first : Player × List Step) (second : Player → Player × List Step) :
    Player × List Step :=
  ((second first.1).1, first.2 ++ (second first.1).2)

/-- The statement `player->setState(new K(player))`, recorded. -/
def Player.setStateNewT (player : Player) (k : StateKind) : Player × List Step :=
  (player.setStateNew k.ctor, [Step.setState k])

def Idle.startFallingT (player : Player) : Player × List Step :=
  player.setStateNewT StateKind.Falling

def Running.startFallingT (player : Player) : Player × List Step :=
  player.setStateNewT StateKind.Falling

def Sliding.startFallingT (player : Player) : Player × List Step := (player, [])

def Falling.startFallingT (player : Player) : Player × List Step := (player, [])

def Hooked.startFallingT (player : Player) : Player × List Step :=
  player.setStateNewT StateKind.Falling

def Sitting.startFallingT (player : Player) : Player × List Step :=
  player.setStateNewT StateKind.Falling

def PlayerState.startFallingT (player : Player) : Player × List Step :=
  match player.mState with
  | .Idle _ => Idle.startFallingT player
  | .Running _ _ => Running.startFallingT player
  | .Sliding _ _ => Sliding.startFallingT player
  | .Falling _ _ => Falling.startFallingT player
  | .Hooked _ => Hooked.startFallingT player
  | .Sitting _ => Sitting.startFallingT player

/-- The body of `PlayerState::jump`: two writes to the player, then the virtual
call `startFalling(player)` on `this`. -/
def PlayerState.jumpT (player : Player) (jumpingVelocity : ℚ) : Player × List Step :=
  let player := { player with mPosition := { player.mPosition with y := player.mPosition.y - 1 } }
  let player := { player with mVelocity := { player.mVelocity with y := -jumpingVelocity } }
  Step.seq (player, [Step.use Member.startFalling]) PlayerState.startFallingT

/-- The statement `jump(player, v)` inside a handler: a call of the member
function `jump` on `this`, then its body. -/
def PlayerState.callJumpT (player : Player) (jumpingVelocity : ℚ) : Player × List Step :=
  Step.seq (player, [Step.use Member.jump]) (fun p => PlayerState.jumpT p jumpingVelocity)

def Idle.updateT (mAnimation : Animation) (player : Player) (kb : Keyboard) (dt : ℚ) :
    Player × List Step :=
  Step.seq
    ({ player with mState := PlayerState.Idle (mAnimation.update dt) },
      [Step.use Member.mAnimation])
    fun player =>
      if kb Key.Left || kb Key.Right then
        player.setStateNewT StateKind.Running
      else (player, [])

def Running.updateT (mAnimation : Animation) (mRunningSpeed : ℚ) (player : Player)
    (kb : Keyboard) (dt : ℚ) : Player × List Step :=
  Step.seq
    ({ player with mState := PlayerState.Running (mAnimation.update dt) mRunningSpeed },
      [Step.use Member.mAnimation])
    fun player =>
      Step.seq
        (if kb Key.Left then
          ({ player with
              mVelocity := { player.mVelocity with x := -mRunningSpeed }
              mIsFacedRight := false },
            [Step.use Member.mRunningSpeed])
        else (player, []))
        fun player =>
          if kb Key.Right then
            ({ player with
                mVelocity := { player.mVelocity with x := mRunningSpeed }
                mIsFacedRight := true },
              [Step.use Member.mRunningSpeed])
          else (player, [])

def Sliding.updateT (mAnimation : Animation) (mCurrentTime : ℚ) (player : Player)
    (dt : ℚ) : Player × List Step :=
  let mAnimation := mAnimation.update dt
  let player := { player with
    mVelocity := { player.mVelocity with x := player.mVelocity.x * Sliding.kVelocityDecay } }
  let mCurrentTime := mCurrentTime - dt
  let player := { player with mState := PlayerState.Sliding mAnimation mCurrentTime }
  Step.seq
    (player, [Step.use Member.mAnimation, Step.use Member.mCurrentTime,
      Step.use Member.mCurrentTime])
    fun player =>
      if mCurrentTime < 0 && player.mIsColliding then
        player.setStateNewT StateKind.Idle
      else (player, [])

def Falling.updateT (mAnimation : Animation) (jumpCount : Nat) (player : Player)
    (kb : Keyboard) (dt : ℚ) : Player × List Step :=
  Step.seq
    ({ player with mState := PlayerState.Falling (mAnimation.update dt) jumpCount },
      [Step.use Member.mAnimation])
    fun player =>
      Step.seq
        (if kb Key.Left then
          ({ player with
              mVelocity := { player.mVelocity with x := -Falling.kHorizontalVelocity }
              mIsFacedRight := false }, [])
        else (player, []))
        fun player =>
          if kb Key.Right then
            ({ player with
                mVelocity := { player.mVelocity with x := Falling.kHorizontalVelocity }
                mIsFacedRight := true }, [])
          else (player, [])

def Hooked.updateT (mAnimation : Animation) (player : Player) (dt : ℚ) : Player × List Step :=
  let player := { player with mVelocity := ⟨0, 0⟩ }
  ({ player with mState := PlayerState.Hooked (mAnimation.update dt) },
    [Step.use Member.mAnimation])

def Sitting.updateT (mAnimation : Animation) (player : Player) (kb : Keyboard) (dt : ℚ) :
    Player × List Step :=
  Step.seq
    ({ player with mState := PlayerState.Sitting (mAnimation.update dt) },
      [Step.use Member.mAnimation])
    fun player =>
      if kb Key.Left || kb Key.Right then
        player.setStateNewT StateKind.Running
      else (player, [])

def PlayerState.updateT (player : Player) (kb : Keyboard) (dt : ℚ) : Player × List Step :=
  match player.mState with
  | .Idle a => Idle.updateT a player kb dt
  | .Running a s => Running.updateT a s player kb dt
  | .Sliding a t => Sliding.updateT a t player dt
  | .Falling a j => Falling.updateT a j player kb dt
  | .Hooked a => Hooked.updateT a player dt
  | .Sitting a => Sitting.updateT a player kb dt

def Idle.handleEventsT (player : Player) (event : Event) : Player × List Step :=
  if event.type = EventType.KeyPressed then
    Step.seq
      (if event.code = Key.Left ∨ event.code = Key.Right then
        player.setStateNewT StateKind.Running
      else (player, []))
      fun player =>
        if event.code = Key.LShift then
          player.setStateNewT StateKind.Sitting
        else if event.code = Key.Space then
          PlayerState.callJumpT player PlayerState.kJumpingVelocity
        else (player, [])
  else (player, [])

def Running.handleEventsT (player : Player) (kb : Keyboard) (event : Event) :
    Player × List Step :=
  if event.type = EventType.KeyPressed ∧ event.code = Key.Space then
    PlayerState.callJumpT player PlayerState.kJumpingVelocity
  else
    Step.seq
      (if event.type = EventType.KeyPressed then
        if event.code = Key.LShift then
          player.setStateNewT StateKind.Sliding
        else (player, [])
      else (player, []))
      fun player =>
        if event.type = EventType.KeyReleased then
          Step.seq
            (if event.code = Key.Left ∧ ¬ kb Key.Right then
              Step.seq (player.setStateNewT StateKind.Idle) fun player =>
                ({ player with mVelocity := { player.mVelocity with x := 0 } }, [])
            else (player, []))
            fun player =>
              if event.code = Key.Right ∧ ¬ kb Key.Left then
                Step.seq (player.setStateNewT StateKind.Idle) fun player =>
                  ({ player with mVelocity := { player.mVelocity with x := 0 } }, [])
              else (player, [])
        else (player, [])

def Sliding.handleEventsT (player : Player) (event : Event) : Player × List Step :=
  if event.type = EventType.KeyPressed then
    Step.seq
      (if event.code = Key.Left ∨ event.code = Key.Right then
        player.setStateNewT StateKind.Running
      else (player, []))
      fun player =>
        if event.code = Key.Space ∧ player.mIsColliding then
          Step.seq (PlayerState.callJumpT player PlayerState.kJumpingVelocity) fun player =>
            player.setStateNewT StateKind.Falling
        else (player, [])
  else (player, [])

def Falling.handleEventsT (mAnimation : Animation) (jumpCount : Nat) (player : Player)
    (event : Event) : Player × List Step :=
  if event.type = EventType.KeyPressed then
    if jumpCount = 0 ∧ event.code = Key.Space then
      Step.seq (player, [Step.use Member.jumpCount]) fun player =>
        Step.seq (PlayerState.callJumpT player PlayerState.kSubJumpingVelocity) fun player =>
          let jumpCount := 1
          ({ player with mState := PlayerState.Falling mAnimation jumpCount },
            [Step.use Member.jumpCount])
    else (player, [Step.use Member.jumpCount])
  else (player, [])

def Hooked.handleEventsT (player : Player) (event : Event) : Player × List Step :=
  if event.type = EventType.KeyPressed then
    if event.code = Key.Space then
      PlayerState.callJumpT player PlayerState.kJumpingVelocity
    else if event.code = Key.Down then
      let player := { player with
        mVelocity := { player.mVelocity with x := if player.mIsFacedRight then -100 else 100 } }
      player.setStateNewT StateKind.Falling
    else (player, [])
  else (player, [])

def Sitting.handleEventsT (player : Player) (kb : Keyboard) (event : Event) :
    Player × List Step :=
  if event.type = EventType.KeyPressed ∧ event.code = Key.Space then
    PlayerState.callJumpT player PlayerState.kJumpingVelocity
  else
    if event.type = EventType.KeyReleased then
      Step.seq
        (if event.code = Key.Left ∧ ¬ kb Key.Right then
          Step.seq (player.setStateNewT StateKind.Idle) fun player =>
            ({ player with mVelocity := { player.mVelocity with x := 0 } }, [])
        else (player, []))
        fun player =>
          Step.seq
            (if event.code = Key.Right ∧ ¬ kb Key.Left then
              Step.seq (player.setStateNewT StateKind.Idle) fun player =>
                ({ player with mVelocity := { player.mVelocity with x := 0 } }, [])
            else (player, []))
            fun player =>
              if event.code = Key.LShift then
                Step.seq (player.setStateNewT StateKind.Idle) fun player =>
                  ({ player with mVelocity := ⟨0, 0⟩ }, [])
              else (player, [])
    else (player, [])

def PlayerState.handleEventsT (player : Player) (kb : Keyboard) (event : Event) :
    Player × List Step :=
  match player.mState with
  | .Idle _ => Idle.handleEventsT player event
  | .Running _ _ => Running.handleEventsT player kb event
  | .Sliding _ _ => Sliding.handleEventsT player event
  | .Falling a j => Falling.handleEventsT a j player event
  | .Hooked _ => Hooked.handleEventsT player event
  | .Sitting _ => Sitting.handleEventsT player kb event

def PlayerState.hookT (player : Player) : Player × List Step :=
  match player.mState with
  | .Falling _ _ => player.setStateNewT StateKind.Hooked
  | _ => (player, [])

def PlayerState.attackedT (player : Player) : Player × List Step := (player, [])

def PlayerState.hitGroundT (player : Player) : Player × List Step :=
  match player.mState with
  | .Falling _ _ => player.setStateNewT StateKind.Idle
  | .Hooked _ => player.setStateNewT StateKind.Idle
  | _ => (player, [])

/-- The call `c` dispatched to the active state, with its recorded steps. -/
def Call.applyT (c : Call) (player : Player) : Player × List Step :=
  match c with
  | .update kb dt => PlayerState.updateT player kb dt
  | .handleEvents kb event => PlayerState.handleEventsT player kb event
  | .hook => PlayerState.hookT player
  | .attacked => PlayerState.attackedT player
  | .startFalling => PlayerState.startFallingT player
  | .hitGround => PlayerState.hitGroundT player

/-- A record of steps in which nothing follows a `setState`: no use of a member
of the superseded object and no second `setState`. -/
def Step.nothingAfterSetState : List Step → Bool
  | [] => true
  | Step.use _ :: rest => Step.nothingAfterSetState rest
  | Step.setState _ :: rest => rest.isEmpty

/-! ## Skill tree (`src/skilltree/skilltree.cpp`)

`size_t` values are natural numbers below `2 ^ 64`; every `size_t` addition and
decrement of the source is reduced modulo `2 ^ 64`. A node owns its children,
so a tree of nodes is an inductive value; `mChildren` is the list of subtrees.
The two constructors of `Node` are the two classes that implement its virtual
functions: `AccumulateNode`, and `HitNode`, which inherits
`Node::leftMouseButtonPressed` and `Node::rightMouseButtonPressed`. Fonts,
textures, sprites and drawing are not represented.

The click handlers recurse into children that the handler has just changed
(`unblock()`, `block()`), so their recursion is not on a subtree of the
argument. They are defined by recursion on a bound for the depth of the calls
(`Node.leftFuel`, `Node.rightFuel`), and the handlers proper start it with the
number of nodes of the tree, which is never used up. -/

/-- The value of a `size_t` expression whose mathematical value is `n`. -/
def size_t.wrap (n : Nat) : Nat := n % 2 ^ 64

/-- `Node::State`. -/
inductive Node.State where
  | Blocked
  | Unblocked
  | Activated
  deriving DecidableEq

/-- `Node::MouseState`. -/
inductive Node.MouseState where
  | LeftButton
  | RightButton
  | ErrorButton
  deriving DecidableEq

/-- A node with its subtrees. `AccumulateNode` carries `maxLevel`,
`currentLevel` and the string of `subTitle`; `HitNode` carries no further data
that changes (`mRadius` is the constant 24). -/
inductive Node where
  | AccumulateNode (mChildren : List Node) (mPosition : Vector2f) (mState : Node.State)
      (maxLevel currentLevel : Nat) (subTitle : String)
  | HitNode (mChildren : List Node) (mPosition : Vector2f) (mState : Node.State)

def Node.mChildren : Node → List Node
  | .AccumulateNode cs _ _ _ _ _ => cs
  | .HitNode cs _ _ => cs

def Node.mState : Node → Node.State
  | .AccumulateNode _ _ s _ _ _ => s
  | .HitNode _ _ s => s

/-- `Node::getPosition`. -/
def Node.getPosition : Node → Vector2f
  | .AccumulateNode _ p _ _ _ _ => p
  | .HitNode _ p _ => p

/-- The constructor `AccumulateNode(position, font, max_level)`. -/
def AccumulateNode.AccumulateNode (position : Vector2f) (max_level : Nat) : Node :=
  Node.AccumulateNode [] position Node.State.Blocked max_level 0
    (toString 0 ++ "/" ++ toString max_level)

/-- The constructor `HitNode(position)`. -/
def HitNode.HitNode (position : Vector2f) : Node :=
  Node.HitNode [] position Node.State.Blocked

/-- `Node::addChild`. -/
def Node.addChild (n : Node) (child : Node) : Node :=
  match n with
  | .AccumulateNode cs p s m l t => .AccumulateNode (cs ++ [child]) p s m l t
  | .HitNode cs p s => .HitNode (cs ++ [child]) p s

/-- `Node::unblock`. -/
def Node.unblock : Node → Node
  | .AccumulateNode cs p _ m l t => .AccumulateNode cs p Node.State.Unblocked m l t
  | .HitNode cs p _ => .HitNode cs p Node.State.Unblocked

/-- The loop `for (child : mChildren) child->unblock();`. -/
def Node.unblockAll (children : List Node) : List Node :=
  children.map Node.unblock

mutual
/-- `Node::block`. -/
def Node.block : Node → Node
  | .AccumulateNode cs p _ m l t => .AccumulateNode (Node.blockAll cs) p Node.State.Blocked m l t
  | .HitNode cs p _ => .HitNode (Node.blockAll cs) p Node.State.Blocked
/-- The loop `for (child : mChildren) child->block();`. -/
def Node.blockAll : List Node → List Node
  | [] => []
  | child :: rest => child.block :: Node.blockAll rest
end

/-- `AccumulateNode::collisionTest` (`width` = 64, `height` = 80) and
`HitNode::collisionTest` (`mRadius` = 24). -/
def Node.collisionTest (n : Node) (mouseCoords : Vector2f) : Bool :=
  match n with
  | .AccumulateNode _ p _ _ _ _ =>
    decide (|p.x - mouseCoords.x| < 64) && decide (|p.y - mouseCoords.y| < 80)
  | .HitNode _ p _ =>
    decide ((p.x - mouseCoords.x) * (p.x - mouseCoords.x)
      + (p.y - mouseCoords.y) * (p.y - mouseCoords.y) < 24 * 24)

mutual
/-- The number of nodes of a tree. -/
def Node.size : Node → Nat
  | .AccumulateNode cs _ _ _ _ _ => 1 + Node.sizeAll cs
  | .HitNode cs _ _ => 1 + Node.sizeAll cs
def Node.sizeAll : List Node → Nat
  | [] => 0
  | child :: rest => child.size + Node.sizeAll rest
end

/-- `Node::leftMouseButtonPressed` (for `HitNode`) and
`AccumulateNode::leftMouseButtonPressed` with at most `fuel` nested calls; the
match on the class of the node is the virtual dispatch, `List.map` the final
loop `for (child : mChildren) child->leftMouseButtonPressed(mouseCoords);`,
which is written at the end of each branch of the `if`. -/
def Node.leftFuel : Nat → Vector2f → Node → Node
  | 0, _, n => n
  | fuel + 1, mouseCoords, .HitNode cs p s =>
    if s = Node.State.Blocked then .HitNode cs p s
    else if (Node.HitNode cs p s).collisionTest mouseCoords then
      if s = Node.State.Unblocked then
        .HitNode ((Node.unblockAll cs).map (Node.leftFuel fuel mouseCoords)) p
          Node.State.Activated
      else if s = Node.State.Activated then
        .HitNode ((Node.blockAll cs).map (Node.leftFuel fuel mouseCoords)) p
          Node.State.Unblocked
      else .HitNode (cs.map (Node.leftFuel fuel mouseCoords)) p s
    else .HitNode (cs.map (Node.leftFuel fuel mouseCoords)) p s
  | fuel + 1, mouseCoords, .AccumulateNode cs p s m l t =>
    if s = Node.State.Blocked then .AccumulateNode cs p s m l t
    else if (Node.AccumulateNode cs p s m l t).collisionTest mouseCoords then
      if s = Node.State.Unblocked then
        .AccumulateNode ((Node.unblockAll cs).map (Node.leftFuel fuel mouseCoords)) p
          Node.State.Activated m 1 (toString 1 ++ "/" ++ toString m)
      else if s = Node.State.Activated then
        .AccumulateNode (cs.map (Node.leftFuel fuel mouseCoords)) p s m
          (if l = m then m else size_t.wrap (l + 1))
          (toString (if l = m then m else size_t.wrap (l + 1)) ++ "/" ++ toString m)
      else .AccumulateNode (cs.map (Node.leftFuel fuel mouseCoords)) p s m l t
    else .AccumulateNode (cs.map (Node.leftFuel fuel mouseCoords)) p s m l t

/-- The virtual call `node->leftMouseButtonPressed(mouseCoords)`. -/
def Node.leftMouseButtonPressed (mouseCoords : Vector2f) (n : Node) : Node :=
  Node.leftFuel n.size mouseCoords n

/-- `Node::rightMouseButtonPressed` (for `HitNode`) and
`AccumulateNode::rightMouseButtonPressed` with at most `fuel` nested calls;
`--currentLevel` is the `size_t` decrement, which wraps at 0. The final loop over
the children is written at the end of each branch of the `if`, and so is the
`subTitle.setString` of the test `mState == State::Unblocked` that precedes
it. -/
def Node.rightFuel : Nat → Vector2f → Node → Node
  | 0, _, n => n
  | fuel + 1, mouseCoords, .HitNode cs p s =>
    if s = Node.State.Blocked then .HitNode cs p s
    else if (Node.HitNode cs p s).collisionTest mouseCoords then
      if s = Node.State.Activated then
        .HitNode ((Node.blockAll cs).map (Node.rightFuel fuel mouseCoords)) p
          Node.State.Unblocked
      else .HitNode (cs.map (Node.rightFuel fuel mouseCoords)) p s
    else .HitNode (cs.map (Node.rightFuel fuel mouseCoords)) p s
  | fuel + 1, mouseCoords, .AccumulateNode cs p s m l t =>
    if s = Node.State.Blocked then .AccumulateNode cs p s m l t
    else if (Node.AccumulateNode cs p s m l t).collisionTest mouseCoords then
      if s = Node.State.Activated then
        if l = 1 then
          .AccumulateNode ((Node.blockAll cs).map (Node.rightFuel fuel mouseCoords)) p
            Node.State.Unblocked m 0 (toString 0 ++ "/" ++ toString m)
        else
          .AccumulateNode (cs.map (Node.rightFuel fuel mouseCoords)) p s m
            (size_t.wrap (l + (2 ^ 64 - 1)))
            (toString (size_t.wrap (l + (2 ^ 64 - 1))) ++ "/" ++ toString m)
      else
        .AccumulateNode (cs.map (Node.rightFuel fuel mouseCoords)) p s m l
          (if s = Node.State.Unblocked then toString 0 ++ "/" ++ toString m else t)
    else
      .AccumulateNode (cs.map (Node.rightFuel fuel mouseCoords)) p s m l
        (if s = Node.State.Unblocked then toString 0 ++ "/" ++ toString m else t)

/-- The virtual call `node->rightMouseButtonPressed(mouseCoords)`. -/
def Node.rightMouseButtonPressed (mouseCoords : Vector2f) (n : Node) : Node :=
  Node.rightFuel n.size mouseCoords n

/-- `Node::onMousePressed`. -/
def Node.onMousePressed (n : Node) (mouseCoords : Vector2f) (state : Node.MouseState) : Node :=
  match state with
  | .LeftButton => Node.leftMouseButtonPressed mouseCoords n
  | .RightButton => Node.rightMouseButtonPressed mouseCoords n
  | .ErrorButton => n

mutual
/-- `AccumulateNode::getNodeStatus` and `HitNode::getNodeStatus`. -/
def Node.getNodeStatus : Node → Nat
  | .AccumulateNode cs _ _ _ l _ => size_t.wrap (Node.sumNodeStatus 0 cs + l)
  | .HitNode cs _ s =>
    if s = Node.State.Activated then size_t.wrap (Node.sumNodeStatus 0 cs + 1)
    else Node.sumNodeStatus 0 cs
/-- The loop `for (auto &child : mChildren) sum += child->getNodeStatus();`,
started with the given value of `sum`. -/
def Node.sumNodeStatus (sum : Nat) : List Node → Nat
  | [] => sum
  | child :: rest => Node.sumNodeStatus (size_t.wrap (sum + child.getNodeStatus)) rest
end

/-- `AbstructSkillTree`: the root, the string of `Title`, `Name`, `currPoints`
and `maxPoints`. -/
structure AbstructSkillTree where
  root : Node
  Title : String
  Name : String
  currPoints : Nat
  maxPoints : Nat

/-- `AbstructSkillTree::onMousePressed`; the `switch` has no case for
`ErrorButton`. -/
def AbstructSkillTree.onMousePressed (tree : AbstructSkillTree) (mouseCoord : Vector2f)
    (state : Node.MouseState) : AbstructSkillTree :=
  match state with
  | .LeftButton =>
    let root :=
      if tree.currPoints ≠ tree.maxPoints then
        Node.leftMouseButtonPressed mouseCoord tree.root
      else tree.root
    let currPoints := root.getNodeStatus
    { tree with
      root := root
      currPoints := currPoints
      Title := tree.Name ++ toString currPoints ++ "/" ++ toString tree.maxPoints }
  | .RightButton =>
    let root := Node.rightMouseButtonPressed mouseCoord tree.root
    let currPoints := root.getNodeStatus
    { tree with
      root := root
      currPoints := currPoints
      Title := tree.Name ++ toString currPoints ++ "/" ++ toString tree.maxPoints }
  | .ErrorButton => tree

/-- `AbstructSkillTree::addChild`. -/
def AbstructSkillTree.addChild (tree : AbstructSkillTree) (child : Node) : AbstructSkillTree :=
  { tree with root := tree.root.addChild child }

/-- A run of clicks delivered to a node through `Node::onMousePressed`. -/
def Node.runClicks (n : Node) (clicks : List (Vector2f × Node.MouseState)) : Node :=
  clicks.foldl (fun node c => node.onMousePressed c.1 c.2) n

/-- A run of clicks delivered through `AbstructSkillTree::onMousePressed`. -/
def AbstructSkillTree.runClicks (tree : AbstructSkillTree)
    (clicks : List (Vector2f × Node.MouseState)) : AbstructSkillTree :=
  clicks.foldl (fun t c => t.onMousePressed c.1 c.2) tree

/-- The calls that change the state of a node. -/
inductive NodeOp where
  | block
  | unblock
  | leftMouseButtonPressed (mouseCoords : Vector2f)
  | rightMouseButtonPressed (mouseCoords : Vector2f)

def NodeOp.apply (op : NodeOp) (n : Node) : Node :=
  match op with
  | .block => n.block
  | .unblock => n.unblock
  | .leftMouseButtonPressed mouseCoords => Node.leftMouseButtonPressed mouseCoords n
  | .rightMouseButtonPressed mouseCoords => Node.rightMouseButtonPressed mouseCoords n

/-- A run of state-changing calls on a node. -/
def Node.runOps (n : Node) (ops : List NodeOp) : Node :=
  ops.foldl (fun node op => op.apply node) n

mutual
/-- The node and every node below it is `Blocked`. -/
def Node.allBlocked : Node → Bool
  | .AccumulateNode cs _ s _ _ _ => decide (s = Node.State.Blocked) && Node.allBlockedAll cs
  | .HitNode cs _ s => decide (s = Node.State.Blocked) && Node.allBlockedAll cs
def Node.allBlockedAll : List Node → Bool
  | [] => true
  | child :: rest => child.allBlocked && Node.allBlockedAll rest
end

mutual
/-- A tree as the constructors leave it: every node is `Blocked` and every
`AccumulateNode` has `currentLevel` 0. -/
def Node.fresh : Node → Bool
  | .AccumulateNode cs _ s _ l _ =>
    decide (s = Node.State.Blocked) && decide (l = 0) && Node.freshAll cs
  | .HitNode cs _ s => decide (s = Node.State.Blocked) && Node.freshAll cs
def Node.freshAll : List Node → Bool
  | [] => true
  | child :: rest => child.fresh && Node.freshAll rest
end

mutual
/-- At the node and at every node below it: a child that is not `Blocked` has
an `Activated` parent. -/
def Node.parentsActivated : Node → Bool
  | .AccumulateNode cs _ s _ _ _ =>
    (decide (s = Node.State.Activated) || cs.all fun c => decide (c.mState = Node.State.Blocked))
      && Node.parentsActivatedAll cs
  | .HitNode cs _ s =>
    (decide (s = Node.State.Activated) || cs.all fun c => decide (c.mState = Node.State.Blocked))
      && Node.parentsActivatedAll cs
def Node.parentsActivatedAll : List Node → Bool
  | [] => true
  | child :: rest => child.parentsActivated && Node.parentsActivatedAll rest
end

mutual
/-- At the node and at every node below it: below a node that is not
`Activated` every node is `Blocked`. -/
def Node.subtreesLocked : Node → Bool
  | .AccumulateNode cs _ s _ _ _ =>
    (decide (s = Node.State.Activated) || Node.allBlockedAll cs) && Node.subtreesLockedAll cs
  | .HitNode cs _ s =>
    (decide (s = Node.State.Activated) || Node.allBlockedAll cs) && Node.subtreesLockedAll cs
def Node.subtreesLockedAll : List Node → Bool
  | [] => true
  | child :: rest => child.subtreesLocked && Node.subtreesLockedAll rest
end

mutual
/-- The value of `getNodeStatus()` as a natural number, without reduction
modulo `2 ^ 64`. -/
def Node.points : Node → Nat
  | .AccumulateNode cs _ _ _ l _ => Node.pointsAll cs + l
  | .HitNode cs _ s => Node.pointsAll cs + (if s = Node.State.Activated then 1 else 0)
def Node.pointsAll : List Node → Nat
  | [] => 0
  | child :: rest => child.points + Node.pointsAll rest
end

mutual
/-- The number of nodes of the tree whose `collisionTest` accepts the
position. -/
def Node.hitCount (mouseCoords : Vector2f) : Node → Nat
  | .AccumulateNode cs p s m l t =>
    (if (Node.AccumulateNode cs p s m l t).collisionTest mouseCoords then 1 else 0)
      + Node.hitCountAll mouseCoords cs
  | .HitNode cs p s =>
    (if (Node.HitNode cs p s).collisionTest mouseCoords then 1 else 0)
      + Node.hitCountAll mouseCoords cs
def Node.hitCountAll (mouseCoords : Vector2f) : List Node → Nat
  | [] => 0
  | child :: rest => child.hitCount mouseCoords + Node.hitCountAll mouseCoords rest
end

mutual
/-- Every `Activated` `AccumulateNode` of the tree has `currentLevel` at
least 1. -/
def Node.levelsPositive : Node → Bool
  | .AccumulateNode cs _ s _ l _ =>
    (decide (s ≠ Node.State.Activated) || decide (1 ≤ l)) && Node.levelsPositiveAll cs
  | .HitNode cs _ _ => Node.levelsPositiveAll cs
def Node.levelsPositiveAll : List Node → Bool
  | [] => true
  | child :: rest => child.levelsPositive && Node.levelsPositiveAll rest
end

/-- What a click handler `f` does to the state and the children of a node: it
returns a `Blocked` node as it is; otherwise it runs on the children after it
has kept the state, or activated the node and unblocked the children, or
deactivated the node and blocked the children. -/
def Node.ClickShape (f : Node → Node) (n : Node) : Prop :=
  (n.mState = Node.State.Blocked ∧ f n = n) ∨
  (n.mState ≠ Node.State.Blocked ∧ (f n).mState = n.mState ∧
    (f n).mChildren = n.mChildren.map f) ∨
  (n.mState = Node.State.Unblocked ∧ (f n).mState = Node.State.Activated ∧
    (f n).mChildren = (Node.unblockAll n.mChildren).map f) ∨
  (n.mState = Node.State.Activated ∧ (f n).mState = Node.State.Unblocked ∧
    (f n).mChildren = (Node.blockAll n.mChildren).map f)

/-- The conditions under which one click keeps `currPoints ≤ maxPoints`: no
position hits two nodes, `currPoints` is the status of the root and at most
`maxPoints`, `maxPoints` fits a `size_t`, every `Activated` `AccumulateNode` has
a level of at least 1, and the points add up to less than `2 ^ 64`. -/
def SkillTree.Capped (tree : AbstructSkillTree) : Prop :=
  (∀ pos : Vector2f, tree.root.hitCount pos ≤ 1) ∧
  tree.currPoints = tree.root.getNodeStatus ∧
  tree.currPoints ≤ tree.maxPoints ∧
  tree.maxPoints < 2 ^ 64 ∧
  tree.root.levelsPositive = true ∧
  tree.root.points < 2 ^ 64

/-- A small tree built the way the skill-tree constructors build theirs: an
`AccumulateNode` root of `maxLevel` 3, a `HitNode` child and a `HitNode`
grandchild, placed so that no position hits two of them. -/
def sampleSkillRoot : Node :=
  (AccumulateNode.AccumulateNode ⟨400, 500⟩ 3).addChild
    ((HitNode.HitNode ⟨400, 380⟩).addChild (HitNode.HitNode ⟨350, 310⟩))

/-- A tree with a single `Activated` `AccumulateNode` whose public
`currentLevel` is 0. -/
def levelZeroTree : AbstructSkillTree :=
  { root := Node.AccumulateNode [] ⟨400, 500⟩ Node.State.Activated 3 0 "0/3"
    Title := "Rogue\n0/10"
    Name := "Rogue\n"
    currPoints := 0
    maxPoints := 10 }

/-- A tree whose levels add up to `2 ^ 64`: an `Activated` `HitNode` root over
a `Blocked` `AccumulateNode` with `currentLevel` `2 ^ 64 - 1`. -/
def overflowTree : AbstructSkillTree :=
  { root := Node.HitNode
      [Node.AccumulateNode [] ⟨400, 300⟩ Node.State.Blocked (2 ^ 64 - 1) (2 ^ 64 - 1) ""]
      ⟨400, 500⟩ Node.State.Activated
    Title := "Rogue\n0/10"
    Name := "Rogue\n"
    currPoints := 0
    maxPoints := 10 }

/-- The constructor `AbstructSkillTree(new_root, font, s_title, max_skill_points,
textColor)`. -/
def AbstructSkillTree.AbstructSkillTree (new_root : Node) (s_title : String)
    (max_skill_points : Nat) : AbstructSkillTree :=
  { maxPoints := max_skill_points
    Name := s_title
    currPoints := 0
    Title := s_title ++ toString 0 ++ "/" ++ toString max_skill_points
    root := new_root }

/-! ## Shared lemmas -/

theorem Falling.update_kind (a : Animation) (j : Nat) (player : Player) (kb : Keyboard)
    (dt : ℚ) : ∃ a' , (Falling.update a j player kb dt).mState = PlayerState.Falling a' j := by
  refine ⟨a.update dt, ?_⟩
  unfold Falling.update
  by_cases hl : kb Key.Left <;> by_cases hr : kb Key.Right <;> simp [hl, hr]

theorem runUpdates_falling (frames : List (ℚ × Keyboard)) :
    ∀ player : Player, player.mState.kind = StateKind.Falling →
      (runUpdates player frames).mState.kind = StateKind.Falling := by
  induction frames with
  | nil => intro player h; simpa [runUpdates] using h
  | cons f rest ih =>
    intro player h
    have step : (PlayerState.update player f.2 f.1).mState.kind = StateKind.Falling := by
      rcases player with ⟨pos, vel, fr, box, g, st⟩
      cases st <;> simp [PlayerState.kind] at h
      rename_i a j
      obtain ⟨a', ha⟩ := Falling.update_kind a j ⟨pos, vel, fr, box, g, .Falling a j⟩ f.2 f.1
      simp [PlayerState.update, ha, PlayerState.kind]
    have := ih _ step
    simpa [runUpdates] using this

theorem hitGround_of_air (player : Player)
    (h : player.mState.kind = StateKind.Falling ∨ player.mState.kind = StateKind.Hooked) :
    PlayerState.hitGround player = player.setStateNew Idle.Idle := by
  rcases player with ⟨pos, vel, fr, box, g, st⟩
  cases st <;> simp [PlayerState.kind] at h <;>
    simp [PlayerState.hitGround, Falling.hitGround, Hooked.hitGround]

theorem Sliding.update_eq (a : Animation) (t : ℚ) (player : Player) (dt : ℚ) :
    Sliding.update a t player dt =
      if t - dt < 0 ∧ player.mIsColliding = true then
        { player with
          mVelocity := ⟨0, 0⟩
          mCollisionRect := ⟨-40, -60, 80, 120⟩
          mState := (Idle.Idle player).1 }
      else
        { player with
          mVelocity := ⟨player.mVelocity.x * 0.99, player.mVelocity.y⟩
          mState := PlayerState.Sliding (a.update dt) (t - dt) } := by
  simp only [Sliding.update, Sliding.kVelocityDecay, Bool.and_eq_true, decide_eq_true_eq]
  split <;> simp [Player.setStateNew, Player.setState, Idle.Idle]

/-- Running's and Sitting's handling of an event, case by case. -/
theorem handleEvents_running_or_sitting_idle_iff (player : Player) (kb : Keyboard)
    (event : Event)
    (h : player.mState.kind = StateKind.Running ∨ player.mState.kind = StateKind.Sitting) :
    ((PlayerState.handleEvents player kb event).mState.kind = StateKind.Idle ↔
      event.type = EventType.KeyReleased ∧
        ((event.code = Key.Left ∧ kb Key.Right = false) ∨
         (event.code = Key.Right ∧ kb Key.Left = false) ∨
         (event.code = Key.LShift ∧ player.mState.kind = StateKind.Sitting))) ∧
    ((PlayerState.handleEvents player kb event).mState.kind = StateKind.Idle →
      (PlayerState.handleEvents player kb event).mVelocity.x = 0) ∧
    (event.type = EventType.KeyReleased →
      (event.code = Key.Left ∧ kb Key.Right = true) ∨
        (event.code = Key.Right ∧ kb Key.Left = true) →
      PlayerState.handleEvents player kb event = player) := by
  rcases player with ⟨pos, vel, fr, box, g, st⟩
  rcases event with ⟨ty, code⟩
  cases st <;> simp [PlayerState.kind] at h <;>
    cases ty <;> cases code <;>
    by_cases hl : kb Key.Left <;> by_cases hr : kb Key.Right <;>
    simp [PlayerState.handleEvents, Running.handleEvents, Sitting.handleEvents,
      PlayerState.jump, PlayerState.startFalling, Running.startFalling, Sitting.startFalling,
      Player.setStateNew, Player.setState, Idle.Idle, Falling.Falling, Sliding.Sliding,
      PlayerState.kind, hl, hr]

/-- A call either keeps the dynamic type of the active state and the collision
box, or changes the dynamic type and leaves the box its constructor writes. -/
theorem Call.apply_collisionRect (c : Call) (player : Player) :
    ((c.apply player).mState.kind = player.mState.kind ∧
      (c.apply player).mCollisionRect = player.mCollisionRect) ∨
    ((c.apply player).mState.kind ≠ player.mState.kind ∧
      (c.apply player).mCollisionRect
        = StateKind.collisionRect (c.apply player).mState.kind) := by
  rcases player with ⟨pos, vel, fr, box, g, st⟩
  cases c with
  | update kb dt =>
    cases st with
    | Sliding a t =>
      by_cases hc : t - dt < 0 ∧ g = true
      · simp only [Call.apply, PlayerState.update, Sliding.update_eq]
        rw [if_pos hc]
        simp [Idle.Idle, PlayerState.kind, StateKind.collisionRect]
      · simp only [Call.apply, PlayerState.update, Sliding.update_eq]
        rw [if_neg hc]
        simp [PlayerState.kind]
    | _ =>
      by_cases hl : kb Key.Left <;> by_cases hr : kb Key.Right <;>
        simp [Call.apply, PlayerState.update, Idle.update, Running.update, Falling.update,
          Hooked.update, Sitting.update, Player.setStateNew, Player.setState,
          Running.Running, PlayerState.kind, StateKind.collisionRect, hl, hr]
  | handleEvents kb event =>
    rcases event with ⟨ty, code⟩
    cases st with
    | Falling a j =>
      by_cases hj : j = 0 <;> cases ty <;> cases code <;>
        simp [Call.apply, PlayerState.handleEvents, Falling.handleEvents, PlayerState.jump,
          PlayerState.startFalling, Falling.startFalling, PlayerState.kind, hj]
    | _ =>
      cases ty <;> cases code <;> cases g <;>
        by_cases hl : kb Key.Left <;> by_cases hr : kb Key.Right <;>
        simp [Call.apply, PlayerState.handleEvents, Idle.handleEvents, Running.handleEvents,
          Sliding.handleEvents, Hooked.handleEvents, Sitting.handleEvents, PlayerState.jump,
          PlayerState.startFalling, Idle.startFalling, Running.startFalling,
          Sliding.startFalling, Hooked.startFalling, Sitting.startFalling,
          Player.setStateNew, Player.setState, Idle.Idle, Running.Running, Sliding.Sliding,
          Falling.Falling, Sitting.Sitting, PlayerState.kind, StateKind.collisionRect, hl, hr]
  | hook =>
    cases st <;>
      simp [Call.apply, PlayerState.hook, Idle.hook, Running.hook, Sliding.hook, Falling.hook,
        Hooked.hook, Sitting.hook, Player.setStateNew, Player.setState, Hooked.Hooked,
        PlayerState.kind, StateKind.collisionRect]
  | attacked =>
    cases st <;>
      simp [Call.apply, PlayerState.attacked, Idle.attacked, Running.attacked,
        Sliding.attacked, Falling.attacked, Hooked.attacked, Sitting.attacked]
  | startFalling =>
    cases st <;>
      simp [Call.apply, PlayerState.startFalling, Idle.startFalling, Running.startFalling,
        Sliding.startFalling, Falling.startFalling, Hooked.startFalling, Sitting.startFalling,
        Player.setStateNew, Player.setState, Falling.Falling, PlayerState.kind,
        StateKind.collisionRect]
  | hitGround =>
    cases st <;>
      simp [Call.apply, PlayerState.hitGround, Idle.hitGround, Running.hitGround,
        Sliding.hitGround, Falling.hitGround, Hooked.hitGround, Sitting.hitGround,
        Player.setStateNew, Player.setState, Idle.Idle, PlayerState.kind,
        StateKind.collisionRect]

/-- A run of calls keeps the collision box the one the active state's
constructor writes. -/
theorem runCalls_collisionRect (calls : List (Bool × Call)) :
    ∀ player : Player,
      player.mCollisionRect = StateKind.collisionRect player.mState.kind →
      (runCalls player calls).mCollisionRect
        = StateKind.collisionRect (runCalls player calls).mState.kind := by
  induction calls with
  | nil => intro player h; simpa [runCalls] using h
  | cons c rest ih =>
    intro player h
    have step : (c.2.apply { player with mIsColliding := c.1 }).mCollisionRect
        = StateKind.collisionRect (c.2.apply { player with mIsColliding := c.1 }).mState.kind := by
      rcases Call.apply_collisionRect c.2 { player with mIsColliding := c.1 } with h1 | h1
      · rw [h1.2, h1.1]
        exact h
      · exact h1.2
    have := ih _ step
    simpa [runCalls] using this

/-- The recording functions compute the same player as the plain ones. -/
theorem Call.applyT_fst (c : Call) (player : Player) :
    (c.applyT player).1 = c.apply player := by
  rcases player with ⟨pos, vel, fr, box, g, st⟩
  cases c with
  | update kb dt =>
    cases st <;>
      by_cases hl : kb Key.Left <;> by_cases hr : kb Key.Right <;>
      simp [Call.applyT, Call.apply, PlayerState.updateT, PlayerState.update, Idle.updateT,
        Idle.update, Running.updateT, Running.update, Sliding.updateT, Sliding.update,
        Falling.updateT, Falling.update, Hooked.updateT, Hooked.update, Sitting.updateT,
        Sitting.update, Step.seq, Player.setStateNewT, StateKind.ctor, hl, hr] <;>
      split <;> rfl
  | handleEvents kb event =>
    rcases event with ⟨ty, code⟩
    cases st <;> cases ty <;> cases code <;> cases g <;>
      by_cases hl : kb Key.Left <;> by_cases hr : kb Key.Right <;>
      simp [Call.applyT, Call.apply, PlayerState.handleEventsT, PlayerState.handleEvents,
        Idle.handleEventsT, Idle.handleEvents, Running.handleEventsT, Running.handleEvents,
        Sliding.handleEventsT, Sliding.handleEvents, Falling.handleEventsT,
        Falling.handleEvents, Hooked.handleEventsT, Hooked.handleEvents,
        Sitting.handleEventsT, Sitting.handleEvents, PlayerState.callJumpT,
        PlayerState.jumpT, PlayerState.jump, PlayerState.startFallingT,
        PlayerState.startFalling, Idle.startFallingT, Idle.startFalling,
        Running.startFallingT, Running.startFalling, Sliding.startFallingT,
        Sliding.startFalling, Falling.startFallingT, Falling.startFalling,
        Hooked.startFallingT, Hooked.startFalling, Sitting.startFallingT,
        Sitting.startFalling, Step.seq, Player.setStateNewT, StateKind.ctor, hl, hr] <;>
      split <;> rfl
  | hook =>
    cases st <;>
      simp [Call.applyT, Call.apply, PlayerState.hookT, PlayerState.hook, Idle.hook,
        Running.hook, Sliding.hook, Falling.hook, Hooked.hook, Sitting.hook,
        Player.setStateNewT, StateKind.ctor]
  | attacked =>
    cases st <;>
      simp [Call.applyT, Call.apply, PlayerState.attackedT, PlayerState.attacked,
        Idle.attacked, Running.attacked, Sliding.attacked, Falling.attacked, Hooked.attacked,
        Sitting.attacked]
  | startFalling =>
    cases st <;>
      simp [Call.applyT, Call.apply, PlayerState.startFallingT, PlayerState.startFalling,
        Idle.startFallingT, Idle.startFalling, Running.startFallingT, Running.startFalling,
        Sliding.startFallingT, Sliding.startFalling, Falling.startFallingT,
        Falling.startFalling, Hooked.startFallingT, Hooked.startFalling,
        Sitting.startFallingT, Sitting.startFalling, Player.setStateNewT, StateKind.ctor]
  | hitGround =>
    cases st <;>
      simp [Call.applyT, Call.apply, PlayerState.hitGroundT, PlayerState.hitGround,
        Idle.hitGround, Running.hitGround, Sliding.hitGround, Falling.hitGround,
        Hooked.hitGround, Sitting.hitGround, Player.setStateNewT, StateKind.ctor]

/-! ## Skill tree: the click handlers satisfy the recursion of the source -/

theorem Node.size_pos (n : Node) : 0 < n.size := by
  cases n <;> simp [Node.size]

theorem Node.size_le_sizeAll {c : Node} {l : List Node} (h : c ∈ l) :
    c.size ≤ Node.sizeAll l := by
  induction l with
  | nil => cases h
  | cons a rest ih =>
    rcases List.mem_cons.mp h with rfl | h'
    · simp [Node.sizeAll]
    · have := ih h'
      simp only [Node.sizeAll]
      omega

theorem Node.size_unblock (n : Node) : n.unblock.size = n.size := by
  cases n <;> simp [Node.unblock, Node.size]

theorem Node.sizeAll_unblockAll (l : List Node) :
    Node.sizeAll (Node.unblockAll l) = Node.sizeAll l := by
  induction l with
  | nil => rfl
  | cons a rest ih =>
    simp only [Node.unblockAll, List.map_cons, Node.sizeAll, Node.size_unblock] at ih ⊢
    rw [ih]

mutual
theorem Node.size_block : ∀ n : Node, n.block.size = n.size
  | .AccumulateNode cs _ _ _ _ _ => by simp [Node.block, Node.size, Node.sizeAll_blockAll cs]
  | .HitNode cs _ _ => by simp [Node.block, Node.size, Node.sizeAll_blockAll cs]
theorem Node.sizeAll_blockAll : ∀ l : List Node, Node.sizeAll (Node.blockAll l) = Node.sizeAll l
  | [] => rfl
  | n :: rest => by
    simp [Node.blockAll, Node.sizeAll, Node.size_block n, Node.sizeAll_blockAll rest]
end

theorem Node.blockAll_eq_map (l : List Node) : Node.blockAll l = l.map Node.block := by
  induction l with
  | nil => rfl
  | cons a rest ih => simp [Node.blockAll, ih]

/-- The result of `Node.leftFuel` does not depend on the bound once the bound
is at least the number of nodes. -/
theorem Node.leftFuel_congr (mc : Vector2f) :
    ∀ (k1 k2 : Nat) (n : Node), n.size ≤ k1 → n.size ≤ k2 →
      Node.leftFuel k1 mc n = Node.leftFuel k2 mc n := by
  intro k1
  induction k1 with
  | zero => intro k2 n h; have := n.size_pos; omega
  | succ a ih =>
    intro k2 n h1 h2
    cases k2 with
    | zero => have := n.size_pos; omega
    | succ b =>
      have hmap : ∀ X : List Node, Node.sizeAll X ≤ a → Node.sizeAll X ≤ b →
          X.map (Node.leftFuel a mc) = X.map (Node.leftFuel b mc) := by
        intro X ha hb
        apply List.map_congr_left
        intro c hc
        have := Node.size_le_sizeAll hc
        exact ih b c (by omega) (by omega)
      cases n with
      | HitNode cs p s =>
        simp only [Node.size] at h1 h2
        have e1 := hmap cs (by omega) (by omega)
        have e2 := hmap (Node.unblockAll cs) (by rw [Node.sizeAll_unblockAll]; omega)
          (by rw [Node.sizeAll_unblockAll]; omega)
        have e3 := hmap (Node.blockAll cs) (by rw [Node.sizeAll_blockAll]; omega)
          (by rw [Node.sizeAll_blockAll]; omega)
        simp only [Node.leftFuel, e1, e2, e3]
      | AccumulateNode cs p s m l t =>
        simp only [Node.size] at h1 h2
        have e1 := hmap cs (by omega) (by omega)
        have e2 := hmap (Node.unblockAll cs) (by rw [Node.sizeAll_unblockAll]; omega)
          (by rw [Node.sizeAll_unblockAll]; omega)
        simp only [Node.leftFuel, e1, e2]

/-- The result of `Node.rightFuel` does not depend on the bound once the bound
is at least the number of nodes. -/
theorem Node.rightFuel_congr (mc : Vector2f) :
    ∀ (k1 k2 : Nat) (n : Node), n.size ≤ k1 → n.size ≤ k2 →
      Node.rightFuel k1 mc n = Node.rightFuel k2 mc n := by
  intro k1
  induction k1 with
  | zero => intro k2 n h; have := n.size_pos; omega
  | succ a ih =>
    intro k2 n h1 h2
    cases k2 with
    | zero => have := n.size_pos; omega
    | succ b =>
      have hmap : ∀ X : List Node, Node.sizeAll X ≤ a → Node.sizeAll X ≤ b →
          X.map (Node.rightFuel a mc) = X.map (Node.rightFuel b mc) := by
        intro X ha hb
        apply List.map_congr_left
        intro c hc
        have := Node.size_le_sizeAll hc
        exact ih b c (by omega) (by omega)
      cases n with
      | HitNode cs p s =>
        simp only [Node.size] at h1 h2
        have e1 := hmap cs (by omega) (by omega)
        have e3 := hmap (Node.blockAll cs) (by rw [Node.sizeAll_blockAll]; omega)
          (by rw [Node.sizeAll_blockAll]; omega)
        simp only [Node.rightFuel, e1, e3]
      | AccumulateNode cs p s m l t =>
        simp only [Node.size] at h1 h2
        have e1 := hmap cs (by omega) (by omega)
        have e3 := hmap (Node.blockAll cs) (by rw [Node.sizeAll_blockAll]; omega)
          (by rw [Node.sizeAll_blockAll]; omega)
        simp only [Node.rightFuel, e1, e3]

theorem Node.map_leftFuel (mc : Vector2f) (k : Nat) (X : List Node)
    (h : Node.sizeAll X ≤ k) :
    X.map (Node.leftFuel k mc) = X.map (Node.leftMouseButtonPressed mc) := by
  apply List.map_congr_left
  intro c hc
  have := Node.size_le_sizeAll hc
  exact Node.leftFuel_congr mc k c.size c (by omega) (le_refl _)

theorem Node.map_rightFuel (mc : Vector2f) (k : Nat) (X : List Node)
    (h : Node.sizeAll X ≤ k) :
    X.map (Node.rightFuel k mc) = X.map (Node.rightMouseButtonPressed mc) := by
  apply List.map_congr_left
  intro c hc
  have := Node.size_le_sizeAll hc
  exact Node.rightFuel_congr mc k c.size c (by omega) (le_refl _)

/-- `Node::leftMouseButtonPressed`, as the source has it. -/
theorem Node.leftMouseButtonPressed_HitNode (mc : Vector2f) (cs : List Node) (p : Vector2f)
    (s : Node.State) :
    Node.leftMouseButtonPressed mc (.HitNode cs p s) =
      if s = Node.State.Blocked then .HitNode cs p s
      else if (Node.HitNode cs p s).collisionTest mc then
        if s = Node.State.Unblocked then
          .HitNode ((Node.unblockAll cs).map (Node.leftMouseButtonPressed mc)) p
            Node.State.Activated
        else if s = Node.State.Activated then
          .HitNode ((Node.blockAll cs).map (Node.leftMouseButtonPressed mc)) p
            Node.State.Unblocked
        else .HitNode (cs.map (Node.leftMouseButtonPressed mc)) p s
      else .HitNode (cs.map (Node.leftMouseButtonPressed mc)) p s := by
  have e1 := Node.map_leftFuel mc (Node.sizeAll cs) cs (le_refl _)
  have e2 := Node.map_leftFuel mc (Node.sizeAll cs) (Node.unblockAll cs)
    (by rw [Node.sizeAll_unblockAll])
  have e3 := Node.map_leftFuel mc (Node.sizeAll cs) (Node.blockAll cs)
    (by rw [Node.sizeAll_blockAll])
  rw [Node.leftMouseButtonPressed, Node.size, Nat.add_comm 1, Node.leftFuel, e1, e2, e3]

/-- `AccumulateNode::leftMouseButtonPressed`, as the source has it. -/
theorem Node.leftMouseButtonPressed_AccumulateNode (mc : Vector2f) (cs : List Node)
    (p : Vector2f) (s : Node.State) (m l : Nat) (t : String) :
    Node.leftMouseButtonPressed mc (.AccumulateNode cs p s m l t) =
      if s = Node.State.Blocked then .AccumulateNode cs p s m l t
      else if (Node.AccumulateNode cs p s m l t).collisionTest mc then
        if s = Node.State.Unblocked then
          .AccumulateNode ((Node.unblockAll cs).map (Node.leftMouseButtonPressed mc)) p
            Node.State.Activated m 1 (toString 1 ++ "/" ++ toString m)
        else if s = Node.State.Activated then
          .AccumulateNode (cs.map (Node.leftMouseButtonPressed mc)) p s m
            (if l = m then m else size_t.wrap (l + 1))
            (toString (if l = m then m else size_t.wrap (l + 1)) ++ "/" ++ toString m)
        else .AccumulateNode (cs.map (Node.leftMouseButtonPressed mc)) p s m l t
      else .AccumulateNode (cs.map (Node.leftMouseButtonPressed mc)) p s m l t := by
  have e1 := Node.map_leftFuel mc (Node.sizeAll cs) cs (le_refl _)
  have e2 := Node.map_leftFuel mc (Node.sizeAll cs) (Node.unblockAll cs)
    (by rw [Node.sizeAll_unblockAll])
  rw [Node.leftMouseButtonPressed, Node.size, Nat.add_comm 1, Node.leftFuel, e1, e2]

/-- `Node::rightMouseButtonPressed`, as the source has it. -/
theorem Node.rightMouseButtonPressed_HitNode (mc : Vector2f) (cs : List Node) (p : Vector2f)
    (s : Node.State) :
    Node.rightMouseButtonPressed mc (.HitNode cs p s) =
      if s = Node.State.Blocked then .HitNode cs p s
      else if (Node.HitNode cs p s).collisionTest mc then
        if s = Node.State.Activated then
          .HitNode ((Node.blockAll cs).map (Node.rightMouseButtonPressed mc)) p
            Node.State.Unblocked
        else .HitNode (cs.map (Node.rightMouseButtonPressed mc)) p s
      else .HitNode (cs.map (Node.rightMouseButtonPressed mc)) p s := by
  have e1 := Node.map_rightFuel mc (Node.sizeAll cs) cs (le_refl _)
  have e3 := Node.map_rightFuel mc (Node.sizeAll cs) (Node.blockAll cs)
    (by rw [Node.sizeAll_blockAll])
  rw [Node.rightMouseButtonPressed, Node.size, Nat.add_comm 1, Node.rightFuel, e1, e3]

/-- `AccumulateNode::rightMouseButtonPressed`, as the source has it. -/
theorem Node.rightMouseButtonPressed_AccumulateNode (mc : Vector2f) (cs : List Node)
    (p : Vector2f) (s : Node.State) (m l : Nat) (t : String) :
    Node.rightMouseButtonPressed mc (.AccumulateNode cs p s m l t) =
      if s = Node.State.Blocked then .AccumulateNode cs p s m l t
      else if (Node.AccumulateNode cs p s m l t).collisionTest mc then
        if s = Node.State.Activated then
          if l = 1 then
            .AccumulateNode ((Node.blockAll cs).map (Node.rightMouseButtonPressed mc)) p
              Node.State.Unblocked m 0 (toString 0 ++ "/" ++ toString m)
          else
            .AccumulateNode (cs.map (Node.rightMouseButtonPressed mc)) p s m
              (size_t.wrap (l + (2 ^ 64 - 1)))
              (toString (size_t.wrap (l + (2 ^ 64 - 1))) ++ "/" ++ toString m)
        else
          .AccumulateNode (cs.map (Node.rightMouseButtonPressed mc)) p s m l
            (if s = Node.State.Unblocked then toString 0 ++ "/" ++ toString m else t)
      else
        .AccumulateNode (cs.map (Node.rightMouseButtonPressed mc)) p s m l
          (if s = Node.State.Unblocked then toString 0 ++ "/" ++ toString m else t) := by
  have e1 := Node.map_rightFuel mc (Node.sizeAll cs) cs (le_refl _)
  have e3 := Node.map_rightFuel mc (Node.sizeAll cs) (Node.blockAll cs)
    (by rw [Node.sizeAll_blockAll])
  rw [Node.rightMouseButtonPressed, Node.size, Nat.add_comm 1, Node.rightFuel, e1, e3]

/-! ## Skill tree: the unlocking invariant -/

theorem Node.size_induction (P : Node → Prop)
    (h : ∀ n : Node, (∀ c : Node, c.size < n.size → P c) → P n) : ∀ n : Node, P n := by
  have key : ∀ (k : Nat) (n : Node), n.size ≤ k → P n := by
    intro k
    induction k with
    | zero => intro n hn; have := n.size_pos; omega
    | succ k ih => intro n hn; exact h n (fun c hc => ih c (by omega))
  exact fun n => key n.size n (le_refl _)

theorem Node.size_lt_of_mem_children {c n : Node} (h : c ∈ n.mChildren) : c.size < n.size := by
  cases n <;> simp only [Node.mChildren] at h <;>
    have := Node.size_le_sizeAll h <;> simp only [Node.size] <;> omega

theorem Node.allBlockedAll_iff (l : List Node) :
    Node.allBlockedAll l = true ↔ ∀ c ∈ l, c.allBlocked = true := by
  induction l with
  | nil => simp [Node.allBlockedAll]
  | cons a rest ih => simp [Node.allBlockedAll, ih]

theorem Node.allBlocked_iff (n : Node) :
    n.allBlocked = true ↔
      n.mState = Node.State.Blocked ∧ ∀ c ∈ n.mChildren, c.allBlocked = true := by
  cases n <;> simp [Node.allBlocked, Node.mState, Node.mChildren, Node.allBlockedAll_iff]

theorem Node.subtreesLockedAll_iff (l : List Node) :
    Node.subtreesLockedAll l = true ↔ ∀ c ∈ l, c.subtreesLocked = true := by
  induction l with
  | nil => simp [Node.subtreesLockedAll]
  | cons a rest ih => simp [Node.subtreesLockedAll, ih]

theorem Node.subtreesLocked_iff (n : Node) :
    n.subtreesLocked = true ↔
      (n.mState ≠ Node.State.Activated → ∀ c ∈ n.mChildren, c.allBlocked = true) ∧
      ∀ c ∈ n.mChildren, c.subtreesLocked = true := by
  cases n <;>
    simp [Node.subtreesLocked, Node.mState, Node.mChildren, Node.allBlockedAll_iff,
      Node.subtreesLockedAll_iff, or_iff_not_imp_left]

theorem Node.parentsActivatedAll_iff (l : List Node) :
    Node.parentsActivatedAll l = true ↔ ∀ c ∈ l, c.parentsActivated = true := by
  induction l with
  | nil => simp [Node.parentsActivatedAll]
  | cons a rest ih => simp [Node.parentsActivatedAll, ih]

theorem Node.parentsActivated_iff (n : Node) :
    n.parentsActivated = true ↔
      (∀ c ∈ n.mChildren, c.mState ≠ Node.State.Blocked → n.mState = Node.State.Activated) ∧
      ∀ c ∈ n.mChildren, c.parentsActivated = true := by
  cases n <;>
    simp only [Node.parentsActivated, Node.mState, Node.mChildren, Bool.and_eq_true,
      Bool.or_eq_true, decide_eq_true_eq, List.all_eq_true, Node.parentsActivatedAll_iff] <;>
    constructor <;> rintro ⟨h1, h2⟩ <;> refine ⟨?_, h2⟩
  · intro c hc hne
    rcases h1 with h1 | h1
    · exact h1
    · exact absurd (h1 c hc) hne
  · by_cases hs : ‹Node.State› = Node.State.Activated
    · exact Or.inl hs
    · exact Or.inr (fun c hc => by_contra fun hne => hs (h1 c hc hne))
  · intro c hc hne
    rcases h1 with h1 | h1
    · exact h1
    · exact absurd (h1 c hc) hne
  · by_cases hs : ‹Node.State› = Node.State.Activated
    · exact Or.inl hs
    · exact Or.inr (fun c hc => by_contra fun hne => hs (h1 c hc hne))

theorem Node.mState_unblock (n : Node) : n.unblock.mState = Node.State.Unblocked := by
  cases n <;> rfl

theorem Node.mChildren_unblock (n : Node) : n.unblock.mChildren = n.mChildren := by
  cases n <;> rfl

theorem Node.mState_block (n : Node) : n.block.mState = Node.State.Blocked := by
  cases n <;> rfl

theorem Node.mChildren_block (n : Node) : n.block.mChildren = n.mChildren.map Node.block := by
  cases n <;> simp [Node.block, Node.mChildren, Node.blockAll_eq_map]

theorem Node.allBlocked_block : ∀ n : Node, n.block.allBlocked = true := by
  apply Node.size_induction
  intro n ih
  rw [Node.allBlocked_iff, Node.mState_block, Node.mChildren_block]
  refine ⟨rfl, ?_⟩
  intro c hc
  obtain ⟨c0, hc0, rfl⟩ := List.mem_map.mp hc
  exact ih c0 (Node.size_lt_of_mem_children hc0)

theorem Node.subtreesLocked_of_allBlocked : ∀ n : Node, n.allBlocked = true →
    n.subtreesLocked = true := by
  apply Node.size_induction
  intro n ih h
  rw [Node.allBlocked_iff] at h
  rw [Node.subtreesLocked_iff]
  exact ⟨fun _ => h.2, fun c hc => ih c (Node.size_lt_of_mem_children hc) (h.2 c hc)⟩

theorem Node.leftMouseButtonPressed_shape (mc : Vector2f) (n : Node) :
    Node.ClickShape (Node.leftMouseButtonPressed mc) n := by
  cases n with
  | HitNode cs p s =>
    rw [Node.ClickShape, Node.leftMouseButtonPressed_HitNode]
    generalize (Node.HitNode cs p s).collisionTest mc = b
    cases b <;> cases s <;> simp [Node.mState, Node.mChildren]
  | AccumulateNode cs p s m l t =>
    rw [Node.ClickShape, Node.leftMouseButtonPressed_AccumulateNode]
    generalize (Node.AccumulateNode cs p s m l t).collisionTest mc = b
    cases b <;> cases s <;> simp [Node.mState, Node.mChildren]

theorem Node.rightMouseButtonPressed_shape (mc : Vector2f) (n : Node) :
    Node.ClickShape (Node.rightMouseButtonPressed mc) n := by
  cases n with
  | HitNode cs p s =>
    rw [Node.ClickShape, Node.rightMouseButtonPressed_HitNode]
    generalize (Node.HitNode cs p s).collisionTest mc = b
    cases b <;> cases s <;> simp [Node.mState, Node.mChildren]
  | AccumulateNode cs p s m l t =>
    rw [Node.ClickShape, Node.rightMouseButtonPressed_AccumulateNode]
    generalize (Node.AccumulateNode cs p s m l t).collisionTest mc = b
    cases b <;> cases s <;> by_cases hl : l = 1 <;>
      simp [Node.mState, Node.mChildren, hl]

theorem Node.map_eq_self_of_allBlocked (f : Node → Node) (hf : ∀ n, Node.ClickShape f n)
    (l : List Node) (h : ∀ c ∈ l, c.allBlocked = true) : l.map f = l := by
  induction l with
  | nil => rfl
  | cons a rest ih =>
    have ha : a.mState = Node.State.Blocked :=
      ((Node.allBlocked_iff a).mp (h a (List.mem_cons_self _ _))).1
    have hfa : f a = a := by
      rcases hf a with h1 | h1 | h1 | h1
      · exact h1.2
      · exact absurd ha h1.1
      · rw [ha] at h1; exact absurd h1.1 (by decide)
      · rw [ha] at h1; exact absurd h1.1 (by decide)
    simp only [List.map_cons, hfa]
    rw [ih (fun c hc => h c (List.mem_cons_of_mem _ hc))]

theorem Node.allBlocked_of_mem_blockAll {l : List Node} {c : Node}
    (hc : c ∈ Node.blockAll l) : c.allBlocked = true := by
  rw [Node.blockAll_eq_map] at hc
  obtain ⟨c0, -, rfl⟩ := List.mem_map.mp hc
  exact Node.allBlocked_block c0

/-- A click handler keeps the unlocking invariant. -/
theorem Node.subtreesLocked_click (f : Node → Node) (hf : ∀ n, Node.ClickShape f n) :
    ∀ n : Node, n.subtreesLocked = true → (f n).subtreesLocked = true := by
  apply Node.size_induction
  intro n ih h
  rw [Node.subtreesLocked_iff] at h
  rcases hf n with h1 | h1 | h1 | h1
  · rw [h1.2, Node.subtreesLocked_iff]
    exact h
  · rw [Node.subtreesLocked_iff, h1.2.1, h1.2.2]
    refine ⟨fun hs => ?_, fun c hc => ?_⟩
    · rw [Node.map_eq_self_of_allBlocked f hf _ (h.1 hs)]
      exact h.1 hs
    · obtain ⟨c0, hc0, rfl⟩ := List.mem_map.mp hc
      exact ih c0 (Node.size_lt_of_mem_children hc0) (h.2 c0 hc0)
  · have hblk : ∀ c ∈ n.mChildren, c.allBlocked = true :=
      h.1 (by rw [h1.1]; decide)
    rw [Node.subtreesLocked_iff, h1.2.1, h1.2.2]
    refine ⟨fun hs => absurd rfl hs, fun c hc => ?_⟩
    obtain ⟨c1, hc1, rfl⟩ := List.mem_map.mp hc
    obtain ⟨c0, hc0, rfl⟩ := List.mem_map.mp hc1
    apply ih
    · rw [Node.size_unblock]
      exact Node.size_lt_of_mem_children hc0
    · rw [Node.subtreesLocked_iff, Node.mChildren_unblock]
      have hc0b := (Node.allBlocked_iff c0).mp (hblk c0 hc0)
      exact ⟨fun _ => hc0b.2, fun d hd =>
        Node.subtreesLocked_of_allBlocked d (hc0b.2 d hd)⟩
  · have hall : ∀ c ∈ Node.blockAll n.mChildren, c.allBlocked = true :=
      fun c hc => Node.allBlocked_of_mem_blockAll hc
    rw [Node.subtreesLocked_iff, h1.2.1, h1.2.2, Node.map_eq_self_of_allBlocked f hf _ hall]
    exact ⟨fun _ => hall, fun c hc => Node.subtreesLocked_of_allBlocked c (hall c hc)⟩

theorem Node.allBlocked_parentsActivated : ∀ n : Node, n.allBlocked = true →
    n.parentsActivated = true := by
  apply Node.size_induction
  intro n ih h
  rw [Node.allBlocked_iff] at h
  rw [Node.parentsActivated_iff]
  refine ⟨fun c hc hne => ?_, fun c hc => ih c (Node.size_lt_of_mem_children hc) (h.2 c hc)⟩
  exact absurd ((Node.allBlocked_iff c).mp (h.2 c hc)).1 hne

/-- The two forms of the unlocking invariant: if below every node that is not
`Activated` everything is `Blocked`, then every node that is not `Blocked` has
an `Activated` parent. -/
theorem Node.parentsActivated_of_subtreesLocked : ∀ n : Node, n.subtreesLocked = true →
    n.parentsActivated = true := by
  apply Node.size_induction
  intro n ih h
  rw [Node.subtreesLocked_iff] at h
  rw [Node.parentsActivated_iff]
  refine ⟨fun c hc hne => ?_, fun c hc => ih c (Node.size_lt_of_mem_children hc) (h.2 c hc)⟩
  by_contra hs
  exact hne ((Node.allBlocked_iff c).mp (h.1 hs c hc)).1

theorem Node.subtreesLocked_onMousePressed (n : Node) (mc : Vector2f) (b : Node.MouseState)
    (h : n.subtreesLocked = true) : (n.onMousePressed mc b).subtreesLocked = true := by
  cases b
  · exact Node.subtreesLocked_click _ (Node.leftMouseButtonPressed_shape mc) n h
  · exact Node.subtreesLocked_click _ (Node.rightMouseButtonPressed_shape mc) n h
  · exact h

theorem Node.subtreesLocked_runClicks (clicks : List (Vector2f × Node.MouseState)) :
    ∀ n : Node, n.subtreesLocked = true → (n.runClicks clicks).subtreesLocked = true := by
  induction clicks with
  | nil => intro n h; exact h
  | cons c rest ih =>
    intro n h
    exact ih _ (Node.subtreesLocked_onMousePressed n c.1 c.2 h)

theorem SkillTree.onMousePressed_keeps_locks (tree : AbstructSkillTree)
    (mc : Vector2f) (b : Node.MouseState) (h : tree.root.subtreesLocked = true) :
    (tree.onMousePressed mc b).root.subtreesLocked = true := by
  cases b
  · simp only [AbstructSkillTree.onMousePressed]
    split
    · exact Node.subtreesLocked_click _ (Node.leftMouseButtonPressed_shape mc) _ h
    · exact h
  · exact Node.subtreesLocked_click _ (Node.rightMouseButtonPressed_shape mc) _ h
  · exact h

theorem SkillTree.runClicks_keeps_locks
    (clicks : List (Vector2f × Node.MouseState)) :
    ∀ tree : AbstructSkillTree, tree.root.subtreesLocked = true →
      (tree.runClicks clicks).root.subtreesLocked = true := by
  induction clicks with
  | nil => intro tree h; exact h
  | cons c rest ih =>
    intro tree h
    exact ih _ (SkillTree.onMousePressed_keeps_locks tree c.1 c.2 h)

theorem Node.subtreesLocked_unblock_of_allBlocked (n : Node) (h : n.allBlocked = true) :
    n.unblock.subtreesLocked = true := by
  rw [Node.subtreesLocked_iff, Node.mChildren_unblock]
  have hb := (Node.allBlocked_iff n).mp h
  exact ⟨fun _ => hb.2, fun c hc => Node.subtreesLocked_of_allBlocked c (hb.2 c hc)⟩

/-! ## Skill tree: the level of an `AccumulateNode` -/

theorem size_t.wrap_le (n : Nat) : size_t.wrap n ≤ n := Nat.mod_le _ _

theorem size_t.wrap_of_lt {n : Nat} (h : n < 2 ^ 64) : size_t.wrap n = n :=
  Nat.mod_eq_of_lt h

theorem size_t.wrap_pred {l : Nat} (h1 : 1 ≤ l) (h2 : l < 2 ^ 64) :
    size_t.wrap (l + (2 ^ 64 - 1)) = l - 1 := by
  unfold size_t.wrap
  omega

/-- One state-changing call keeps an `AccumulateNode` an `AccumulateNode` with
the same position and `maxLevel`, keeps `currentLevel ≤ maxLevel`, and keeps
`currentLevel ≥ 1` for an `Activated` node. -/
theorem NodeOp.apply_accumulateNode (op : NodeOp) (cs : List Node) (p : Vector2f)
    (s : Node.State) (m l : Nat) (t : String) (hm : 1 ≤ m) (hm64 : m < 2 ^ 64)
    (hl : l ≤ m) (hs : s = Node.State.Activated → 1 ≤ l) :
    ∃ cs' s' l' t', op.apply (.AccumulateNode cs p s m l t) = .AccumulateNode cs' p s' m l' t' ∧
      l' ≤ m ∧ (s' = Node.State.Activated → 1 ≤ l') := by
  cases op with
  | block => exact ⟨_, _, _, _, rfl, hl, by simp⟩
  | unblock => exact ⟨_, _, _, _, rfl, hl, by simp⟩
  | leftMouseButtonPressed mc =>
    simp only [NodeOp.apply, Node.leftMouseButtonPressed_AccumulateNode]
    generalize (Node.AccumulateNode cs p s m l t).collisionTest mc = b
    cases b <;> cases s <;> simp only [reduceCtorEq, if_true, if_false, Bool.false_eq_true]
    · exact ⟨_, _, _, _, rfl, hl, by simp⟩
    · exact ⟨_, _, _, _, rfl, hl, by simp⟩
    · exact ⟨_, _, _, _, rfl, hl, hs⟩
    · exact ⟨_, _, _, _, rfl, hl, by simp⟩
    · exact ⟨_, _, _, _, rfl, hm, by simp⟩
    · refine ⟨_, _, _, _, rfl, ?_, fun _ => ?_⟩
      · split
        · exact le_refl _
        · have := size_t.wrap_le (l + 1)
          omega
      · split
        · exact hm
        · rw [size_t.wrap_of_lt (by omega)]
          omega
  | rightMouseButtonPressed mc =>
    simp only [NodeOp.apply, Node.rightMouseButtonPressed_AccumulateNode]
    generalize (Node.AccumulateNode cs p s m l t).collisionTest mc = b
    cases b <;> cases s <;> simp only [reduceCtorEq, if_true, if_false, Bool.false_eq_true]
    · exact ⟨_, _, _, _, rfl, hl, by simp⟩
    · exact ⟨_, _, _, _, rfl, hl, by simp⟩
    · exact ⟨_, _, _, _, rfl, hl, hs⟩
    · exact ⟨_, _, _, _, rfl, hl, by simp⟩
    · exact ⟨_, _, _, _, rfl, hl, by simp⟩
    · have h1 := hs rfl
      by_cases hone : l = 1
      · simp only [hone, if_true]
        exact ⟨_, _, _, _, rfl, by omega, by simp⟩
      · simp only [hone, if_false]
        refine ⟨_, _, _, _, rfl, ?_, fun _ => ?_⟩
        · rw [size_t.wrap_pred h1 (by omega)]
          omega
        · rw [size_t.wrap_pred h1 (by omega)]
          omega

theorem Node.runOps_accumulateNode (ops : List NodeOp) (p : Vector2f) (m : Nat)
    (hm : 1 ≤ m) (hm64 : m < 2 ^ 64) :
    ∀ (cs : List Node) (s : Node.State) (l : Nat) (t : String),
      l ≤ m → (s = Node.State.Activated → 1 ≤ l) →
      ∃ cs' s' l' t', (Node.AccumulateNode cs p s m l t).runOps ops
          = .AccumulateNode cs' p s' m l' t' ∧
        l' ≤ m ∧ (s' = Node.State.Activated → 1 ≤ l') := by
  induction ops with
  | nil => intro cs s l t hl hs; exact ⟨cs, s, l, t, rfl, hl, hs⟩
  | cons op rest ih =>
    intro cs s l t hl hs
    obtain ⟨cs1, s1, l1, t1, he, hl1, hs1⟩ :=
      NodeOp.apply_accumulateNode op cs p s m l t hm hm64 hl hs
    obtain ⟨cs2, s2, l2, t2, he2, hl2, hs2⟩ := ih cs1 s1 l1 t1 hl1 hs1
    refine ⟨cs2, s2, l2, t2, ?_, hl2, hs2⟩
    rw [← he2, ← he]
    rfl

/-! ## Skill tree: skill points -/

theorem Node.points_le_pointsAll {c : Node} {l : List Node} (h : c ∈ l) :
    c.points ≤ Node.pointsAll l := by
  induction l with
  | nil => cases h
  | cons a rest ih =>
    rcases List.mem_cons.mp h with rfl | h'
    · simp [Node.pointsAll]
    · have := ih h'
      simp only [Node.pointsAll]
      omega

theorem Node.pointsAll_le_points (n : Node) : Node.pointsAll n.mChildren ≤ n.points := by
  cases n <;> simp [Node.points, Node.mChildren]

theorem Node.points_child_le {c n : Node} (h : c ∈ n.mChildren) : c.points ≤ n.points :=
  le_trans (Node.points_le_pointsAll h) (Node.pointsAll_le_points n)

mutual
/-- Below `2 ^ 64` the sums of `getNodeStatus` do not wrap. -/
theorem Node.getNodeStatus_eq_points : ∀ n : Node, n.points < 2 ^ 64 →
    n.getNodeStatus = n.points
  | .AccumulateNode cs _ _ _ l _ => by
    intro h
    simp only [Node.points] at h
    simp only [Node.getNodeStatus, Node.points]
    rw [Node.sumNodeStatus_eq cs 0 (by omega), Nat.zero_add, size_t.wrap_of_lt h]
  | .HitNode cs _ s => by
    intro h
    simp only [Node.points] at h
    simp only [Node.getNodeStatus, Node.points]
    rw [Node.sumNodeStatus_eq cs 0 (by omega), Nat.zero_add]
    by_cases hs : s = Node.State.Activated
    · simp only [hs, if_true] at h ⊢
      rw [size_t.wrap_of_lt h]
    · simp only [hs, if_false, Nat.add_zero]
theorem Node.sumNodeStatus_eq : ∀ (l : List Node) (sum : Nat),
    sum + Node.pointsAll l < 2 ^ 64 → Node.sumNodeStatus sum l = sum + Node.pointsAll l
  | [], _ => by intro _; simp [Node.sumNodeStatus, Node.pointsAll]
  | c :: rest, sum => by
    intro h
    simp only [Node.pointsAll] at h
    simp only [Node.sumNodeStatus, Node.pointsAll]
    rw [Node.getNodeStatus_eq_points c (by omega), size_t.wrap_of_lt (by omega),
      Node.sumNodeStatus_eq rest (sum + c.points) (by omega)]
    omega
end

theorem Node.points_unblock_le (n : Node) : n.unblock.points ≤ n.points := by
  cases n with
  | AccumulateNode cs p s m l t => simp [Node.unblock, Node.points]
  | HitNode cs p s => simp [Node.unblock, Node.points]

mutual
theorem Node.points_block_le : ∀ n : Node, n.block.points ≤ n.points
  | .AccumulateNode cs _ _ _ l _ => by
    have := Node.pointsAll_blockAll_le cs
    simp only [Node.block, Node.points]
    omega
  | .HitNode cs _ s => by
    have := Node.pointsAll_blockAll_le cs
    simp only [Node.block, Node.points, reduceCtorEq, if_false]
    omega
theorem Node.pointsAll_blockAll_le : ∀ l : List Node,
    Node.pointsAll (Node.blockAll l) ≤ Node.pointsAll l
  | [] => by simp [Node.blockAll]
  | c :: rest => by
    have h1 := Node.points_block_le c
    have h2 := Node.pointsAll_blockAll_le rest
    simp only [Node.blockAll, Node.pointsAll]
    omega
end

theorem Node.hitCount_unblock (mc : Vector2f) (n : Node) :
    n.unblock.hitCount mc = n.hitCount mc := by
  cases n <;> simp [Node.unblock, Node.hitCount, Node.collisionTest]

mutual
theorem Node.hitCount_block (mc : Vector2f) : ∀ n : Node, n.block.hitCount mc = n.hitCount mc
  | .AccumulateNode cs _ _ _ _ _ => by
    simp [Node.block, Node.hitCount, Node.collisionTest, Node.hitCountAll_blockAll mc cs]
  | .HitNode cs _ _ => by
    simp [Node.block, Node.hitCount, Node.collisionTest, Node.hitCountAll_blockAll mc cs]
theorem Node.hitCountAll_blockAll (mc : Vector2f) : ∀ l : List Node,
    Node.hitCountAll mc (Node.blockAll l) = Node.hitCountAll mc l
  | [] => rfl
  | c :: rest => by
    simp [Node.blockAll, Node.hitCountAll, Node.hitCount_block mc c,
      Node.hitCountAll_blockAll mc rest]
end

/-- When a function adds to the points of each node of a list at most the
number of nodes hit in it, it adds to the points of the list at most the
number of nodes hit in the list. -/
theorem Node.pointsAll_map_le (mc : Vector2f) (f : Node → Node) (l : List Node)
    (h : ∀ c ∈ l, (f c).points ≤ c.points + c.hitCount mc) :
    Node.pointsAll (l.map f) ≤ Node.pointsAll l + Node.hitCountAll mc l := by
  induction l with
  | nil => simp [Node.pointsAll]
  | cons a rest ih =>
    have h1 := h a (List.mem_cons_self _ _)
    have h2 := ih (fun c hc => h c (List.mem_cons_of_mem _ hc))
    simp only [List.map_cons, Node.pointsAll, Node.hitCountAll]
    omega

theorem Node.pointsAll_map_le_self (f : Node → Node) (l : List Node)
    (h : ∀ c ∈ l, (f c).points ≤ c.points) :
    Node.pointsAll (l.map f) ≤ Node.pointsAll l := by
  induction l with
  | nil => simp [Node.pointsAll]
  | cons a rest ih =>
    have h1 := h a (List.mem_cons_self _ _)
    have h2 := ih (fun c hc => h c (List.mem_cons_of_mem _ hc))
    simp only [List.map_cons, Node.pointsAll]
    omega

/-- A left click adds at most one point for each node it hits. -/
theorem Node.points_leftMouseButtonPressed_le (mc : Vector2f) :
    ∀ n : Node, (Node.leftMouseButtonPressed mc n).points ≤ n.points + n.hitCount mc := by
  apply Node.size_induction
  intro n ih
  have hcs : Node.pointsAll (n.mChildren.map (Node.leftMouseButtonPressed mc))
      ≤ Node.pointsAll n.mChildren + Node.hitCountAll mc n.mChildren :=
    Node.pointsAll_map_le mc _ _ fun c hc => ih c (Node.size_lt_of_mem_children hc)
  have hun : Node.pointsAll ((Node.unblockAll n.mChildren).map (Node.leftMouseButtonPressed mc))
      ≤ Node.pointsAll n.mChildren + Node.hitCountAll mc n.mChildren := by
    rw [Node.unblockAll, List.map_map]
    apply Node.pointsAll_map_le
    intro c hc
    have h1 := ih c.unblock (by rw [Node.size_unblock]; exact Node.size_lt_of_mem_children hc)
    have h2 := Node.points_unblock_le c
    rw [Node.hitCount_unblock] at h1
    simp only [Function.comp]
    omega
  have hbl : Node.pointsAll ((Node.blockAll n.mChildren).map (Node.leftMouseButtonPressed mc))
      ≤ Node.pointsAll n.mChildren + Node.hitCountAll mc n.mChildren := by
    rw [Node.blockAll_eq_map, List.map_map]
    apply Node.pointsAll_map_le
    intro c hc
    have h1 := ih c.block (by rw [Node.size_block]; exact Node.size_lt_of_mem_children hc)
    have h2 := Node.points_block_le c
    rw [Node.hitCount_block] at h1
    simp only [Function.comp]
    omega
  cases n with
  | HitNode cs p s =>
    simp only [Node.mChildren] at hcs hun hbl
    rw [Node.leftMouseButtonPressed_HitNode]
    simp only [Node.hitCount]
    generalize (Node.HitNode cs p s).collisionTest mc = b
    cases b <;> cases s <;>
      simp only [reduceCtorEq, if_true, if_false, Bool.false_eq_true, Node.points] <;> omega
  | AccumulateNode cs p s m l t =>
    simp only [Node.mChildren] at hcs hun hbl
    rw [Node.leftMouseButtonPressed_AccumulateNode]
    simp only [Node.hitCount]
    generalize (Node.AccumulateNode cs p s m l t).collisionTest mc = b
    have hw := size_t.wrap_le (l + 1)
    cases b <;> cases s <;>
      simp only [reduceCtorEq, if_true, if_false, Bool.false_eq_true, Node.points] <;>
      first
        | omega
        | (split <;> omega)

theorem Node.levelsPositiveAll_iff (l : List Node) :
    Node.levelsPositiveAll l = true ↔ ∀ c ∈ l, c.levelsPositive = true := by
  induction l with
  | nil => simp [Node.levelsPositiveAll]
  | cons a rest ih => simp [Node.levelsPositiveAll, ih]

theorem Node.levelsPositive_child {c n : Node} (h : n.levelsPositive = true)
    (hc : c ∈ n.mChildren) : c.levelsPositive = true := by
  cases n <;> simp only [Node.levelsPositive, Bool.and_eq_true, Node.mChildren] at h hc
  · exact (Node.levelsPositiveAll_iff _).mp h.2 c hc
  · exact (Node.levelsPositiveAll_iff _).mp h c hc

theorem Node.levelsPositive_unblock (n : Node) (h : n.levelsPositive = true) :
    n.unblock.levelsPositive = true := by
  cases n <;> simp only [Node.levelsPositive, Bool.and_eq_true] at h
  · simp [Node.unblock, Node.levelsPositive, h.2]
  · simp [Node.unblock, Node.levelsPositive, h]

mutual
theorem Node.levelsPositive_block : ∀ n : Node, n.block.levelsPositive = true
  | .AccumulateNode cs _ _ _ _ _ => by
    simp [Node.block, Node.levelsPositive, Node.levelsPositiveAll_blockAll cs]
  | .HitNode cs _ _ => by
    simp [Node.block, Node.levelsPositive, Node.levelsPositiveAll_blockAll cs]
theorem Node.levelsPositiveAll_blockAll : ∀ l : List Node,
    Node.levelsPositiveAll (Node.blockAll l) = true
  | [] => rfl
  | c :: rest => by
    simp [Node.blockAll, Node.levelsPositiveAll, Node.levelsPositive_block c,
      Node.levelsPositiveAll_blockAll rest]
end

theorem Node.levelsPositiveAll_map (f : Node → Node) (l : List Node)
    (h : ∀ c ∈ l, (f c).levelsPositive = true) :
    Node.levelsPositiveAll (l.map f) = true := by
  rw [Node.levelsPositiveAll_iff]
  intro c hc
  obtain ⟨c0, hc0, rfl⟩ := List.mem_map.mp hc
  exact h c0 hc0

/-- A right click adds no point and keeps every `Activated` `AccumulateNode`
at a level of at least 1, when that holds before the click and the points do
not reach `2 ^ 64`. -/
theorem Node.rightMouseButtonPressed_points (mc : Vector2f) :
    ∀ n : Node, n.levelsPositive = true → n.points < 2 ^ 64 →
      (Node.rightMouseButtonPressed mc n).points ≤ n.points ∧
      (Node.rightMouseButtonPressed mc n).levelsPositive = true := by
  apply Node.size_induction
  intro n ih hlev hpts
  have hc : ∀ c ∈ n.mChildren,
      (Node.rightMouseButtonPressed mc c).points ≤ c.points ∧
      (Node.rightMouseButtonPressed mc c).levelsPositive = true := fun c hc =>
    ih c (Node.size_lt_of_mem_children hc) (Node.levelsPositive_child hlev hc)
      (lt_of_le_of_lt (Node.points_child_le hc) hpts)
  have hb : ∀ c ∈ n.mChildren,
      (Node.rightMouseButtonPressed mc c.block).points ≤ c.points ∧
      (Node.rightMouseButtonPressed mc c.block).levelsPositive = true := fun c hc => by
    have h1 := Node.points_block_le c
    have h2 := Node.points_child_le hc
    have h3 := ih c.block (by rw [Node.size_block]; exact Node.size_lt_of_mem_children hc)
      (Node.levelsPositive_block c) (by omega)
    exact ⟨by omega, h3.2⟩
  have hcs1 := Node.pointsAll_map_le_self (Node.rightMouseButtonPressed mc) n.mChildren
    fun c h => (hc c h).1
  have hcs2 := Node.levelsPositiveAll_map (Node.rightMouseButtonPressed mc) n.mChildren
    fun c h => (hc c h).2
  have hbl1 : Node.pointsAll ((Node.blockAll n.mChildren).map (Node.rightMouseButtonPressed mc))
      ≤ Node.pointsAll n.mChildren := by
    rw [Node.blockAll_eq_map, List.map_map]
    exact Node.pointsAll_map_le_self _ _ fun c h => (hb c h).1
  have hbl2 : Node.levelsPositiveAll
      ((Node.blockAll n.mChildren).map (Node.rightMouseButtonPressed mc)) = true := by
    rw [Node.blockAll_eq_map, List.map_map]
    exact Node.levelsPositiveAll_map _ _ fun c h => (hb c h).2
  cases n with
  | HitNode cs p s =>
    simp only [Node.mChildren] at hcs1 hcs2 hbl1 hbl2
    rw [Node.rightMouseButtonPressed_HitNode]
    generalize (Node.HitNode cs p s).collisionTest mc = b
    cases b <;> cases s <;>
      simp only [reduceCtorEq, if_true, if_false, Bool.false_eq_true] <;>
      first
        | exact ⟨le_refl _, hlev⟩
        | (refine ⟨?_, ?_⟩
           · simp only [Node.points, reduceCtorEq, if_true, if_false]
             omega
           · simp only [Node.levelsPositive, hcs2, hbl2])
  | AccumulateNode cs p s m l t =>
    simp only [Node.mChildren] at hcs1 hcs2 hbl1 hbl2
    rw [Node.rightMouseButtonPressed_AccumulateNode]
    generalize (Node.AccumulateNode cs p s m l t).collisionTest mc = b
    have hl1 : s = Node.State.Activated → 1 ≤ l := by
      intro hs
      simp only [Node.levelsPositive, hs, ne_eq, not_true_eq_false, decide_False,
        Bool.false_or, Bool.and_eq_true, decide_eq_true_eq] at hlev
      exact hlev.1
    simp only [Node.points] at hpts
    cases b <;> cases s <;>
      simp only [reduceCtorEq, if_true, if_false, Bool.false_eq_true]
    · exact ⟨le_refl _, hlev⟩
    · refine ⟨?_, ?_⟩
      · simp only [Node.points]
        omega
      · simp [Node.levelsPositive, hcs2]
    · refine ⟨?_, ?_⟩
      · simp only [Node.points]
        omega
      · simp [Node.levelsPositive, hcs2, hl1 rfl]
    · exact ⟨le_refl _, hlev⟩
    · refine ⟨?_, ?_⟩
      · simp only [Node.points]
        omega
      · simp [Node.levelsPositive, hcs2]
    · have h1 : 1 ≤ l := hl1 rfl
      by_cases hone : l = 1
      · simp only [hone, if_true]
        refine ⟨?_, ?_⟩
        · simp only [Node.points]
          omega
        · simp [Node.levelsPositive, hbl2]
      · simp only [hone, if_false]
        rw [size_t.wrap_pred h1 (by omega)]
        refine ⟨?_, ?_⟩
        · simp only [Node.points]
          omega
        · simp only [Node.levelsPositive, hcs2, Bool.and_true, Bool.or_eq_true,
            decide_eq_true_eq]
          right
          omega

/-- A left click keeps every `Activated` `AccumulateNode` at a level of at
least 1, when that holds before the click and the points stay below
`2 ^ 64 - 1`. -/
theorem Node.leftMouseButtonPressed_levelsPositive (mc : Vector2f) :
    ∀ n : Node, n.levelsPositive = true → n.points + 1 < 2 ^ 64 →
      (Node.leftMouseButtonPressed mc n).levelsPositive = true := by
  apply Node.size_induction
  intro n ih hlev hpts
  have hcs2 := Node.levelsPositiveAll_map (Node.leftMouseButtonPressed mc) n.mChildren
    fun c hc => ih c (Node.size_lt_of_mem_children hc) (Node.levelsPositive_child hlev hc)
      (by have := Node.points_child_le hc; omega)
  have hun2 : Node.levelsPositiveAll
      ((Node.unblockAll n.mChildren).map (Node.leftMouseButtonPressed mc)) = true := by
    rw [Node.unblockAll, List.map_map]
    refine Node.levelsPositiveAll_map _ _ fun c hc => ?_
    have h1 := Node.points_unblock_le c
    have h2 := Node.points_child_le hc
    exact ih c.unblock (by rw [Node.size_unblock]; exact Node.size_lt_of_mem_children hc)
      (Node.levelsPositive_unblock c (Node.levelsPositive_child hlev hc)) (by omega)
  have hbl2 : Node.levelsPositiveAll
      ((Node.blockAll n.mChildren).map (Node.leftMouseButtonPressed mc)) = true := by
    rw [Node.blockAll_eq_map, List.map_map]
    refine Node.levelsPositiveAll_map _ _ fun c hc => ?_
    have h1 := Node.points_block_le c
    have h2 := Node.points_child_le hc
    exact ih c.block (by rw [Node.size_block]; exact Node.size_lt_of_mem_children hc)
      (Node.levelsPositive_block c) (by omega)
  cases n with
  | HitNode cs p s =>
    simp only [Node.mChildren] at hcs2 hun2 hbl2
    rw [Node.leftMouseButtonPressed_HitNode]
    generalize (Node.HitNode cs p s).collisionTest mc = b
    cases b <;> cases s <;>
      simp only [reduceCtorEq, if_true, if_false, Bool.false_eq_true] <;>
      first
        | exact hlev
        | simp only [Node.levelsPositive, hcs2, hun2, hbl2]
  | AccumulateNode cs p s m l t =>
    simp only [Node.mChildren] at hcs2 hun2 hbl2
    rw [Node.leftMouseButtonPressed_AccumulateNode]
    generalize (Node.AccumulateNode cs p s m l t).collisionTest mc = b
    have hl1 : s = Node.State.Activated → 1 ≤ l := by
      intro hs
      simp only [Node.levelsPositive, hs, ne_eq, not_true_eq_false, decide_False,
        Bool.false_or, Bool.and_eq_true, decide_eq_true_eq] at hlev
      exact hlev.1
    simp only [Node.points] at hpts
    cases b <;> cases s <;>
      simp only [reduceCtorEq, if_true, if_false, Bool.false_eq_true]
    · exact hlev
    · simp [Node.levelsPositive, hcs2]
    · simp [Node.levelsPositive, hcs2, hl1 rfl]
    · exact hlev
    · simp [Node.levelsPositive, hun2]
    · have h1 : 1 ≤ l := hl1 rfl
      simp only [Node.levelsPositive, hcs2, Bool.and_true, Bool.or_eq_true,
        decide_eq_true_eq]
      right
      split
      · omega
      · rw [size_t.wrap_of_lt (by omega)]
        omega

theorem Node.hitCountAll_map (pos : Vector2f) (f : Node → Node) (l : List Node)
    (h : ∀ c ∈ l, (f c).hitCount pos = c.hitCount pos) :
    Node.hitCountAll pos (l.map f) = Node.hitCountAll pos l := by
  induction l with
  | nil => rfl
  | cons a rest ih =>
    simp only [List.map_cons, Node.hitCountAll, h a (List.mem_cons_self _ _),
      ih (fun c hc => h c (List.mem_cons_of_mem _ hc))]

/-- A left click moves no node. -/
theorem Node.hitCount_leftMouseButtonPressed (mc pos : Vector2f) :
    ∀ n : Node, (Node.leftMouseButtonPressed mc n).hitCount pos = n.hitCount pos := by
  apply Node.size_induction
  intro n ih
  have hcs := Node.hitCountAll_map pos (Node.leftMouseButtonPressed mc) n.mChildren
    fun c hc => ih c (Node.size_lt_of_mem_children hc)
  have hun : Node.hitCountAll pos
      ((Node.unblockAll n.mChildren).map (Node.leftMouseButtonPressed mc))
      = Node.hitCountAll pos n.mChildren := by
    rw [Node.unblockAll, List.map_map]
    refine Node.hitCountAll_map pos _ _ fun c hc => ?_
    simp only [Function.comp]
    rw [ih c.unblock (by rw [Node.size_unblock]; exact Node.size_lt_of_mem_children hc),
      Node.hitCount_unblock]
  have hbl : Node.hitCountAll pos
      ((Node.blockAll n.mChildren).map (Node.leftMouseButtonPressed mc))
      = Node.hitCountAll pos n.mChildren := by
    rw [Node.blockAll_eq_map, List.map_map]
    refine Node.hitCountAll_map pos _ _ fun c hc => ?_
    simp only [Function.comp]
    rw [ih c.block (by rw [Node.size_block]; exact Node.size_lt_of_mem_children hc),
      Node.hitCount_block]
  cases n with
  | HitNode cs p s =>
    simp only [Node.mChildren] at hcs hun hbl
    rw [Node.leftMouseButtonPressed_HitNode]
    generalize (Node.HitNode cs p s).collisionTest mc = b
    cases b <;> cases s <;>
      simp only [reduceCtorEq, if_true, if_false, Bool.false_eq_true, Node.hitCount,
        Node.collisionTest, hcs, hun, hbl]
  | AccumulateNode cs p s m l t =>
    simp only [Node.mChildren] at hcs hun hbl
    rw [Node.leftMouseButtonPressed_AccumulateNode]
    generalize (Node.AccumulateNode cs p s m l t).collisionTest mc = b
    cases b <;> cases s <;>
      simp only [reduceCtorEq, if_true, if_false, Bool.false_eq_true, Node.hitCount,
        Node.collisionTest, hcs, hun, hbl]

/-- A right click moves no node. -/
theorem Node.hitCount_rightMouseButtonPressed (mc pos : Vector2f) :
    ∀ n : Node, (Node.rightMouseButtonPressed mc n).hitCount pos = n.hitCount pos := by
  apply Node.size_induction
  intro n ih
  have hcs := Node.hitCountAll_map pos (Node.rightMouseButtonPressed mc) n.mChildren
    fun c hc => ih c (Node.size_lt_of_mem_children hc)
  have hbl : Node.hitCountAll pos
      ((Node.blockAll n.mChildren).map (Node.rightMouseButtonPressed mc))
      = Node.hitCountAll pos n.mChildren := by
    rw [Node.blockAll_eq_map, List.map_map]
    refine Node.hitCountAll_map pos _ _ fun c hc => ?_
    simp only [Function.comp]
    rw [ih c.block (by rw [Node.size_block]; exact Node.size_lt_of_mem_children hc),
      Node.hitCount_block]
  cases n with
  | HitNode cs p s =>
    simp only [Node.mChildren] at hcs hbl
    rw [Node.rightMouseButtonPressed_HitNode]
    generalize (Node.HitNode cs p s).collisionTest mc = b
    cases b <;> cases s <;>
      simp only [reduceCtorEq, if_true, if_false, Bool.false_eq_true, Node.hitCount,
        Node.collisionTest, hcs, hbl]
  | AccumulateNode cs p s m l t =>
    simp only [Node.mChildren] at hcs hbl
    rw [Node.rightMouseButtonPressed_AccumulateNode]
    generalize (Node.AccumulateNode cs p s m l t).collisionTest mc = b
    cases b <;> cases s <;> by_cases hone : l = 1 <;>
      simp only [reduceCtorEq, if_true, if_false, Bool.false_eq_true, Node.hitCount,
        Node.collisionTest, hcs, hbl, hone]

/-- One click keeps the conditions of `SkillTree.Capped`, and `maxPoints`. -/
theorem SkillTree.capped_onMousePressed (tree : AbstructSkillTree) (mouseCoord : Vector2f)
    (state : Node.MouseState) (h : SkillTree.Capped tree) :
    SkillTree.Capped (tree.onMousePressed mouseCoord state) ∧
    (tree.onMousePressed mouseCoord state).maxPoints = tree.maxPoints := by
  obtain ⟨hhit, hcur, hle, hmax, hlev, hsum⟩ := h
  have hst := Node.getNodeStatus_eq_points tree.root hsum
  cases state with
  | LeftButton =>
    by_cases he : tree.currPoints = tree.maxPoints
    · refine ⟨⟨?_, ?_, ?_, ?_, ?_, ?_⟩, ?_⟩ <;>
        simp only [AbstructSkillTree.onMousePressed, he, ne_eq, not_true_eq_false, if_false]
      · exact hhit
      · omega
      · exact hmax
      · exact hlev
      · exact hsum
    · have h1 := Node.points_leftMouseButtonPressed_le mouseCoord tree.root
      have h2 := hhit mouseCoord
      have h3 : (Node.leftMouseButtonPressed mouseCoord tree.root).points < 2 ^ 64 := by omega
      have h4 := Node.getNodeStatus_eq_points _ h3
      have h5 := Node.leftMouseButtonPressed_levelsPositive mouseCoord tree.root hlev
        (by omega)
      refine ⟨⟨?_, ?_, ?_, ?_, ?_, ?_⟩, ?_⟩ <;>
        simp only [AbstructSkillTree.onMousePressed, he, ne_eq, not_false_eq_true, if_true]
      · intro pos
        rw [Node.hitCount_leftMouseButtonPressed]
        exact hhit pos
      · omega
      · exact hmax
      · exact h5
      · exact h3
  | RightButton =>
    have h1 := Node.rightMouseButtonPressed_points mouseCoord tree.root hlev hsum
    have h3 : (Node.rightMouseButtonPressed mouseCoord tree.root).points < 2 ^ 64 := by omega
    have h4 := Node.getNodeStatus_eq_points _ h3
    refine ⟨⟨?_, ?_, ?_, ?_, ?_, ?_⟩, ?_⟩ <;> simp only [AbstructSkillTree.onMousePressed]
    · intro pos
      rw [Node.hitCount_rightMouseButtonPressed]
      exact hhit pos
    · omega
    · exact hmax
    · exact h1.2
    · exact h3
  | ErrorButton => exact ⟨⟨hhit, hcur, hle, hmax, hlev, hsum⟩, rfl⟩

/-- Every run of clicks keeps the conditions of `SkillTree.Capped`. -/
theorem SkillTree.capped_runClicks (clicks : List (Vector2f × Node.MouseState)) :
    ∀ tree : AbstructSkillTree, SkillTree.Capped tree →
      SkillTree.Capped (tree.runClicks clicks) ∧
      (tree.runClicks clicks).maxPoints = tree.maxPoints := by
  induction clicks with
  | nil => intro tree h; exact ⟨h, rfl⟩
  | cons c rest ih =>
    intro tree h
    have h1 := SkillTree.capped_onMousePressed tree c.1 c.2 h
    have h2 := ih (tree.onMousePressed c.1 c.2) h1.1
    exact ⟨h2.1, h2.2.trans h1.2⟩

mutual
theorem Node.points_fresh : ∀ n : Node, n.fresh = true →
    n.points = 0 ∧ n.levelsPositive = true
  | .AccumulateNode cs _ s _ l _ => by
    intro h
    simp only [Node.fresh, Bool.and_eq_true, decide_eq_true_eq] at h
    have := Node.pointsAll_fresh cs h.2
    simp [Node.points, Node.levelsPositive, h.1.1, h.1.2, this.1, this.2]
  | .HitNode cs _ s => by
    intro h
    simp only [Node.fresh, Bool.and_eq_true, decide_eq_true_eq] at h
    have := Node.pointsAll_fresh cs h.2
    simp [Node.points, Node.levelsPositive, h.1, this.1, this.2]
theorem Node.pointsAll_fresh : ∀ l : List Node, Node.freshAll l = true →
    Node.pointsAll l = 0 ∧ Node.levelsPositiveAll l = true
  | [] => by intro _; exact ⟨rfl, rfl⟩
  | c :: rest => by
    intro h
    simp only [Node.freshAll, Bool.and_eq_true] at h
    have h1 := Node.points_fresh c h.1
    have h2 := Node.pointsAll_fresh rest h.2
    simp [Node.pointsAll, Node.levelsPositiveAll, h1.1, h1.2, h2.1, h2.2]
end

/-- A tree as the constructors leave it, with its root unblocked, meets the
conditions of `SkillTree.Capped`, and so does every tree that clicks make of
it. -/
theorem SkillTree.capped_of_fresh (root : Node) (name : String) (maxPoints : Nat)
    (clicks : List (Vector2f × Node.MouseState)) (hfresh : root.fresh = true)
    (hhit : ∀ pos : Vector2f, root.hitCount pos ≤ 1) (hmax : maxPoints < 2 ^ 64) :
    SkillTree.Capped
      ((AbstructSkillTree.AbstructSkillTree root.unblock name maxPoints).runClicks clicks) := by
  apply (SkillTree.capped_runClicks clicks _ _).1
  have h0 := Node.points_fresh root hfresh
  have h1 := Node.points_unblock_le root
  have h2 : root.unblock.points < 2 ^ 64 := by
    have : (0 : Nat) < 2 ^ 64 := by norm_num
    omega
  refine ⟨?_, ?_, ?_, hmax, Node.levelsPositive_unblock root h0.2, h2⟩
  · intro pos
    simp only [AbstructSkillTree.AbstructSkillTree]
    rw [Node.hitCount_unblock]
    exact hhit pos
  · simp only [AbstructSkillTree.AbstructSkillTree]
    rw [Node.getNodeStatus_eq_points _ h2]
    omega
  · simp [AbstructSkillTree.AbstructSkillTree]

/-! ## Claims -/

/-- C1: `hook()` replaces the active state only when it is Falling, and the
new state is then Hooked (position, velocity and facing are kept); in Idle,
Running, Sliding, Hooked and Sitting the whole player is left as it was. -/
theorem hook_replaces_state_only_when_falling (player : Player) :
    (player.mState.kind = StateKind.Falling →
      (PlayerState.hook player).mState.kind = StateKind.Hooked ∧
      (PlayerState.hook player).mPosition = player.mPosition ∧
      (PlayerState.hook player).mVelocity = player.mVelocity ∧
      (PlayerState.hook player).mIsFacedRight = player.mIsFacedRight) ∧
    (player.mState.kind ≠ StateKind.Falling → PlayerState.hook player = player) := by
  rcases player with ⟨pos, vel, fr, box, g, st⟩
  cases st <;>
    simp [PlayerState.hook, PlayerState.kind, Idle.hook, Running.hook, Sliding.hook,
      Falling.hook, Hooked.hook, Sitting.hook, Player.setStateNew, Player.setState,
      Hooked.Hooked]

/-- C1, witness: `fallingPlayer` is Falling and `hook()` makes it Hooked;
`runningPlayer` is not Falling and `hook()` leaves it as it was. -/
theorem hook_replaces_state_only_when_falling_witness :
    fallingPlayer.mState.kind = StateKind.Falling ∧
    (PlayerState.hook fallingPlayer).mState.kind = StateKind.Hooked ∧
    runningPlayer.mState.kind ≠ StateKind.Falling ∧
    PlayerState.hook runningPlayer = runningPlayer :=
  ⟨by decide,
    ((hook_replaces_state_only_when_falling fallingPlayer).1 (by decide)).1,
    by decide,
    (hook_replaces_state_only_when_falling runningPlayer).2 (by decide)⟩

/-- C3: from Falling and from Hooked, whatever the prior velocity, `hitGround()`
makes a newly constructed Idle the active state, and the velocity is then (0,0)
and the collision box [-40,-60,80,120]. -/
theorem hitGround_from_falling_or_hooked (player : Player)
    (h : player.mState.kind = StateKind.Falling ∨ player.mState.kind = StateKind.Hooked) :
    (PlayerState.hitGround player).mState = (Idle.Idle player).1 ∧
    (PlayerState.hitGround player).mState.kind = StateKind.Idle ∧
    (PlayerState.hitGround player).mVelocity = ⟨0, 0⟩ ∧
    (PlayerState.hitGround player).mCollisionRect = ⟨-40, -60, 80, 120⟩ := by
  rw [hitGround_of_air player h]
  simp [Player.setStateNew, Player.setState, Idle.Idle, PlayerState.kind]

/-- C3, witness: `fallingPlayer` has velocity (500, 50); after `hitGround()`
Idle is active and the velocity is (0,0). -/
theorem hitGround_from_falling_or_hooked_witness :
    fallingPlayer.mState.kind = StateKind.Falling ∧
    fallingPlayer.mVelocity = ⟨500, 50⟩ ∧
    (PlayerState.hitGround fallingPlayer).mState.kind = StateKind.Idle ∧
    (PlayerState.hitGround fallingPlayer).mVelocity = ⟨0, 0⟩ :=
  ⟨by decide, by decide,
    (hitGround_from_falling_or_hooked fallingPlayer (Or.inl (by decide))).2.1,
    (hitGround_from_falling_or_hooked fallingPlayer (Or.inl (by decide))).2.2.1⟩

/-- C4: from Idle, a Space key press, then any run of `update(dt)` calls with
arbitrary `dt` and held keys, then `hitGround()`, ends in Idle with collision box
[-40,-60,80,120] and velocity (0,0). -/
theorem idle_jump_land_round_trip (player : Player) (kb : Keyboard)
    (frames : List (ℚ × Keyboard)) (h : player.mState.kind = StateKind.Idle) :
    (PlayerState.hitGround
        (runUpdates (PlayerState.handleEvents player kb spacePressed) frames)).mState.kind
      = StateKind.Idle ∧
    (PlayerState.hitGround
        (runUpdates (PlayerState.handleEvents player kb spacePressed) frames)).mCollisionRect
      = ⟨-40, -60, 80, 120⟩ ∧
    (PlayerState.hitGround
        (runUpdates (PlayerState.handleEvents player kb spacePressed) frames)).mVelocity
      = ⟨0, 0⟩ := by
  have hf : (PlayerState.handleEvents player kb spacePressed).mState.kind
      = StateKind.Falling := by
    rcases player with ⟨pos, vel, fr, box, g, st⟩
    cases st <;> simp [PlayerState.kind] at h
    simp [PlayerState.handleEvents, Idle.handleEvents, spacePressed, PlayerState.jump,
      PlayerState.startFalling, Idle.startFalling, Player.setStateNew, Player.setState,
      Falling.Falling, PlayerState.kind]
  have hr := runUpdates_falling frames _ hf
  rw [hitGround_of_air _ (Or.inl hr)]
  simp [Player.setStateNew, Player.setState, Idle.Idle, PlayerState.kind]

/-- C4, witness: `basePlayer` is Idle; a Space key press, two `update` calls
(the second with Left held) and `hitGround()` end with velocity (0,0). -/
theorem idle_jump_land_round_trip_witness :
    basePlayer.mState.kind = StateKind.Idle ∧
    (PlayerState.hitGround
        (runUpdates (PlayerState.handleEvents basePlayer noKeys spacePressed)
          [(1 / 60, noKeys), (1 / 30, fun k => decide (k = Key.Left))])).mVelocity
      = ⟨0, 0⟩ :=
  ⟨by decide,
    (idle_jump_land_round_trip basePlayer noKeys
      [(1 / 60, noKeys), (1 / 30, fun k => decide (k = Key.Left))] (by decide)).2.2⟩

/-- C8: with Running or Sitting active, a Left release while Right is not
held, and a Right release while Left is not held, make Idle active with
velocity.x = 0; a Left or Right release while the opposite key is held leaves
the player, its active state included, unchanged. -/
theorem direction_release_returns_to_idle (player : Player) (kb : Keyboard)
    (h : player.mState.kind = StateKind.Running ∨ player.mState.kind = StateKind.Sitting) :
    (kb Key.Right = false →
      (PlayerState.handleEvents player kb ⟨EventType.KeyReleased, Key.Left⟩).mState.kind
        = StateKind.Idle ∧
      (PlayerState.handleEvents player kb ⟨EventType.KeyReleased, Key.Left⟩).mVelocity.x = 0) ∧
    (kb Key.Left = false →
      (PlayerState.handleEvents player kb ⟨EventType.KeyReleased, Key.Right⟩).mState.kind
        = StateKind.Idle ∧
      (PlayerState.handleEvents player kb ⟨EventType.KeyReleased, Key.Right⟩).mVelocity.x = 0) ∧
    (kb Key.Right = true →
      PlayerState.handleEvents player kb ⟨EventType.KeyReleased, Key.Left⟩ = player) ∧
    (kb Key.Left = true →
      PlayerState.handleEvents player kb ⟨EventType.KeyReleased, Key.Right⟩ = player) := by
  have hL := handleEvents_running_or_sitting_idle_iff player kb
    ⟨EventType.KeyReleased, Key.Left⟩ h
  have hR := handleEvents_running_or_sitting_idle_iff player kb
    ⟨EventType.KeyReleased, Key.Right⟩ h
  refine ⟨fun hk => ?_, fun hk => ?_, fun hk => ?_, fun hk => ?_⟩
  · have hi := hL.1.mpr ⟨rfl, Or.inl ⟨rfl, hk⟩⟩
    exact ⟨hi, hL.2.1 hi⟩
  · have hi := hR.1.mpr ⟨rfl, Or.inr (Or.inl ⟨rfl, hk⟩)⟩
    exact ⟨hi, hR.2.1 hi⟩
  · exact hL.2.2 rfl (Or.inl ⟨rfl, hk⟩)
  · exact hR.2.2 rfl (Or.inr ⟨rfl, hk⟩)

/-- C8, witness: a Left release with no key held takes `runningPlayer` to Idle;
a Right release with Left held leaves `sittingPlayer` as it was. -/
theorem direction_release_returns_to_idle_witness :
    runningPlayer.mState.kind = StateKind.Running ∧
    (PlayerState.handleEvents runningPlayer noKeys ⟨EventType.KeyReleased, Key.Left⟩).mState.kind
      = StateKind.Idle ∧
    PlayerState.handleEvents sittingPlayer (fun _ => true) ⟨EventType.KeyReleased, Key.Right⟩
      = sittingPlayer :=
  ⟨by decide,
    ((direction_release_returns_to_idle runningPlayer noKeys (Or.inl (by decide))).1 rfl).1,
    (direction_release_returns_to_idle sittingPlayer (fun _ => true)
      (Or.inr (by decide))).2.2.2 rfl⟩

/-- C9 (as amended): with Running or Sitting active, `handleEvents` makes Idle
active only if the event is a key release of Left with Right not held, of
Right with Left not held, or, in Sitting, of LShift; the facing of the player
plays no part. Whenever Idle becomes active the resulting velocity.x is 0. -/
theorem idle_only_on_release (player : Player) (kb : Keyboard) (event : Event)
    (h : player.mState.kind = StateKind.Running ∨ player.mState.kind = StateKind.Sitting)
    (hi : (PlayerState.handleEvents player kb event).mState.kind = StateKind.Idle) :
    event.type = EventType.KeyReleased ∧
    ((event.code = Key.Left ∧ kb Key.Right = false) ∨
     (event.code = Key.Right ∧ kb Key.Left = false) ∨
     (event.code = Key.LShift ∧ player.mState.kind = StateKind.Sitting)) ∧
    (PlayerState.handleEvents player kb event).mVelocity.x = 0 := by
  have hE := handleEvents_running_or_sitting_idle_iff player kb event h
  exact ⟨(hE.1.mp hi).1, (hE.1.mp hi).2, hE.2.1 hi⟩

/-- C9, witness: a Right release with no key held takes `sittingPlayer` to Idle
with velocity.x = 0. -/
theorem idle_only_on_release_witness :
    sittingPlayer.mState.kind = StateKind.Sitting ∧
    (PlayerState.handleEvents sittingPlayer noKeys ⟨EventType.KeyReleased, Key.Right⟩).mState.kind
      = StateKind.Idle ∧
    (PlayerState.handleEvents sittingPlayer noKeys ⟨EventType.KeyReleased, Key.Right⟩).mVelocity.x
      = 0 :=
  ⟨by decide, by decide,
    (idle_only_on_release sittingPlayer noKeys ⟨EventType.KeyReleased, Key.Right⟩
      (Or.inr (by decide)) (by decide)).2.2⟩

/-- C9, counterexample: `runningPlayer` faces right, yet a Left release with no
key held makes Idle active; and in `sittingPlayer` an LShift release, which is
no direction key, makes Idle active. So Idle is not reached only through a
release of the direction key that matches the facing. -/
theorem idle_on_release_ignores_facing :
    runningPlayer.mIsFacedRight = true ∧
    (PlayerState.handleEvents runningPlayer noKeys ⟨EventType.KeyReleased, Key.Left⟩).mState.kind
      = StateKind.Idle ∧
    (PlayerState.handleEvents sittingPlayer noKeys ⟨EventType.KeyReleased, Key.LShift⟩).mState.kind
      = StateKind.Idle ∧
    ¬ (∀ (player : Player) (kb : Keyboard) (event : Event),
        player.mState.kind = StateKind.Running ∨ player.mState.kind = StateKind.Sitting →
        (PlayerState.handleEvents player kb event).mState.kind = StateKind.Idle →
        event.type = EventType.KeyReleased ∧
        ((player.mIsFacedRight = false ∧ event.code = Key.Left ∧ kb Key.Right = false) ∨
         (player.mIsFacedRight = true ∧ event.code = Key.Right ∧ kb Key.Left = false))) := by
  refine ⟨by decide, by decide, by decide, fun hall => ?_⟩
  have := (hall runningPlayer noKeys ⟨EventType.KeyReleased, Key.Left⟩
    (Or.inl (by decide)) (by decide)).2
  revert this
  decide

/-- C10 (as amended): with Idle active, a Left or Right key press makes
Running active; with Sitting active, a Left or Right key press leaves the
player, its active state included, unchanged. -/
theorem direction_press_starts_running_from_idle (player : Player) (kb : Keyboard)
    (code : Key) (hc : code = Key.Left ∨ code = Key.Right) :
    (player.mState.kind = StateKind.Idle →
      (PlayerState.handleEvents player kb ⟨EventType.KeyPressed, code⟩).mState.kind
        = StateKind.Running) ∧
    (player.mState.kind = StateKind.Sitting →
      PlayerState.handleEvents player kb ⟨EventType.KeyPressed, code⟩ = player) := by
  rcases player with ⟨pos, vel, fr, box, g, st⟩
  rcases hc with rfl | rfl <;> cases st <;>
    simp [PlayerState.handleEvents, Idle.handleEvents, Sitting.handleEvents,
      Player.setStateNew, Player.setState, Running.Running, PlayerState.kind]

/-- C10, witness: a Right key press takes the Idle `basePlayer` to Running. -/
theorem direction_press_starts_running_from_idle_witness :
    basePlayer.mState.kind = StateKind.Idle ∧
    (PlayerState.handleEvents basePlayer noKeys ⟨EventType.KeyPressed, Key.Right⟩).mState.kind
      = StateKind.Running :=
  ⟨by decide,
    (direction_press_starts_running_from_idle basePlayer noKeys Key.Right (Or.inr rfl)).1
      (by decide)⟩

/-- C10, counterexample: with Sitting active a Left key press leaves Sitting
active, it does not make Running the active state. -/
theorem sitting_ignores_direction_press :
    sittingPlayer.mState.kind = StateKind.Sitting ∧
    (PlayerState.handleEvents sittingPlayer noKeys ⟨EventType.KeyPressed, Key.Left⟩).mState.kind
      = StateKind.Sitting ∧
    (PlayerState.handleEvents sittingPlayer noKeys ⟨EventType.KeyPressed, Key.Left⟩).mState.kind
      ≠ StateKind.Running := by
  decide

/-- C11: with Idle or Sitting active, a single call that is not a Left/Right
key-press event (an `update`, any other event, `hook`, `attacked`,
`startFalling`, `hitGround`) leaves Running active if and only if it is an
`update` during which Left or Right is held. -/
theorem running_reached_only_by_update (player : Player) (c : Call)
    (h : player.mState.kind = StateKind.Idle ∨ player.mState.kind = StateKind.Sitting)
    (hc : c.isDirectionPress = false) :
    (c.apply player).mState.kind = StateKind.Running ↔
      ∃ kb dt, c = Call.update kb dt ∧ (kb Key.Left = true ∨ kb Key.Right = true) := by
  rcases player with ⟨pos, vel, fr, box, g, st⟩
  cases c with
  | update kb dt =>
    cases st <;> simp [PlayerState.kind] at h <;>
      by_cases hl : kb Key.Left <;> by_cases hr : kb Key.Right <;>
      simp [Call.apply, PlayerState.update, Idle.update, Sitting.update, Player.setStateNew,
        Player.setState, Running.Running, PlayerState.kind, hl, hr]
  | handleEvents kb event =>
    rcases event with ⟨ty, code⟩
    cases st <;> simp [PlayerState.kind] at h <;>
      cases ty <;> cases code <;> simp [Call.isDirectionPress] at hc <;>
      by_cases hl : kb Key.Left <;> by_cases hr : kb Key.Right <;>
      simp [Call.apply, PlayerState.handleEvents, Idle.handleEvents, Sitting.handleEvents,
        PlayerState.jump, PlayerState.startFalling, Idle.startFalling, Sitting.startFalling,
        Player.setStateNew, Player.setState, Idle.Idle, Falling.Falling, Sitting.Sitting,
        PlayerState.kind, hl, hr]
  | hook =>
    cases st <;> simp [PlayerState.kind] at h <;>
      simp [Call.apply, PlayerState.hook, Idle.hook, Sitting.hook, PlayerState.kind]
  | attacked =>
    cases st <;> simp [PlayerState.kind] at h <;>
      simp [Call.apply, PlayerState.attacked, Idle.attacked, Sitting.attacked, PlayerState.kind]
  | startFalling =>
    cases st <;> simp [PlayerState.kind] at h <;>
      simp [Call.apply, PlayerState.startFalling, Idle.startFalling, Sitting.startFalling,
        Player.setStateNew, Player.setState, Falling.Falling, PlayerState.kind]
  | hitGround =>
    cases st <;> simp [PlayerState.kind] at h <;>
      simp [Call.apply, PlayerState.hitGround, Idle.hitGround, Sitting.hitGround,
        PlayerState.kind]

/-- C11, witness: on the Sitting `sittingPlayer` an `update` with Left held
leaves Running active, and `hitGround()` does not. -/
theorem running_reached_only_by_update_witness :
    sittingPlayer.mState.kind = StateKind.Sitting ∧
    ((Call.update (fun k => decide (k = Key.Left)) (1 / 60)).apply sittingPlayer).mState.kind
      = StateKind.Running ∧
    (Call.hitGround.apply sittingPlayer).mState.kind ≠ StateKind.Running :=
  ⟨by decide,
    (running_reached_only_by_update sittingPlayer
      (Call.update (fun k => decide (k = Key.Left)) (1 / 60)) (Or.inr (by decide)) rfl).mpr
      ⟨_, _, rfl, Or.inl (by decide)⟩,
    fun hk => by
      have := (running_reached_only_by_update sittingPlayer Call.hitGround
        (Or.inr (by decide)) rfl).mp hk
      obtain ⟨kb, dt, hcall, -⟩ := this
      cases hcall⟩

/-- C12 (as amended): with Sitting active, an LShift key release makes Idle the
active state with velocity (0,0); an LShift key press leaves the player, its
active state included, unchanged. -/
theorem sitting_shift_release_returns_to_idle (player : Player) (kb : Keyboard)
    (h : player.mState.kind = StateKind.Sitting) :
    (PlayerState.handleEvents player kb ⟨EventType.KeyReleased, Key.LShift⟩).mState.kind
      = StateKind.Idle ∧
    (PlayerState.handleEvents player kb ⟨EventType.KeyReleased, Key.LShift⟩).mVelocity
      = ⟨0, 0⟩ ∧
    PlayerState.handleEvents player kb ⟨EventType.KeyPressed, Key.LShift⟩ = player := by
  rcases player with ⟨pos, vel, fr, box, g, st⟩
  cases st <;> simp [PlayerState.kind] at h
  by_cases hl : kb Key.Left <;> by_cases hr : kb Key.Right <;>
    simp [PlayerState.handleEvents, Sitting.handleEvents, Player.setStateNew, Player.setState,
      Idle.Idle, PlayerState.kind, hl, hr]

/-- C12, witness: an LShift release takes `sittingPlayer` to Idle with velocity
(0,0). -/
theorem sitting_shift_release_returns_to_idle_witness :
    sittingPlayer.mState.kind = StateKind.Sitting ∧
    (PlayerState.handleEvents sittingPlayer noKeys
      ⟨EventType.KeyReleased, Key.LShift⟩).mState.kind = StateKind.Idle ∧
    (PlayerState.handleEvents sittingPlayer noKeys
      ⟨EventType.KeyReleased, Key.LShift⟩).mVelocity = ⟨0, 0⟩ :=
  ⟨by decide,
    (sitting_shift_release_returns_to_idle sittingPlayer noKeys (by decide)).1,
    (sitting_shift_release_returns_to_idle sittingPlayer noKeys (by decide)).2.1⟩

/-- C12, counterexample: with Sitting active an LShift key press leaves Sitting
active; Idle does not become the active state. -/
theorem sitting_ignores_shift_press :
    sittingPlayer.mState.kind = StateKind.Sitting ∧
    (PlayerState.handleEvents sittingPlayer noKeys
      ⟨EventType.KeyPressed, Key.LShift⟩).mState.kind = StateKind.Sitting ∧
    (PlayerState.handleEvents sittingPlayer noKeys
      ⟨EventType.KeyPressed, Key.LShift⟩).mState.kind ≠ StateKind.Idle := by
  decide

/-- C16: with Hooked active, a Down key press sets velocity.x to -100 when the
player faces right and to +100 when it faces left, keeps velocity.y and the
position, and installs a newly constructed Falling (extra-jump counter 0). -/
theorem hooked_down_press_drops (player : Player) (kb : Keyboard)
    (h : player.mState.kind = StateKind.Hooked) :
    PlayerState.handleEvents player kb ⟨EventType.KeyPressed, Key.Down⟩ =
      { player with
        mVelocity := ⟨if player.mIsFacedRight = true then -100 else 100, player.mVelocity.y⟩
        mCollisionRect := ⟨-40, -60, 80, 120⟩
        mState := (Falling.Falling player).1 } ∧
    ∃ a, (PlayerState.handleEvents player kb ⟨EventType.KeyPressed, Key.Down⟩).mState
      = PlayerState.Falling a 0 := by
  have e : PlayerState.handleEvents player kb ⟨EventType.KeyPressed, Key.Down⟩ =
      { player with
        mVelocity := ⟨if player.mIsFacedRight = true then -100 else 100, player.mVelocity.y⟩
        mCollisionRect := ⟨-40, -60, 80, 120⟩
        mState := (Falling.Falling player).1 } := by
    rcases player with ⟨pos, vel, fr, box, g, st⟩
    cases st <;> simp [PlayerState.kind] at h
    simp [PlayerState.handleEvents, Hooked.handleEvents, Player.setStateNew, Player.setState,
      Falling.Falling]
  refine ⟨e, ?_⟩
  rw [e]
  exact ⟨_, rfl⟩

/-- C16, witness: `hookedPlayer` faces right with velocity (500, 50); a Down key
press leaves it Falling with velocity (-100, 50). -/
theorem hooked_down_press_drops_witness :
    hookedPlayer.mState.kind = StateKind.Hooked ∧
    hookedPlayer.mIsFacedRight = true ∧
    (PlayerState.handleEvents hookedPlayer noKeys
      ⟨EventType.KeyPressed, Key.Down⟩).mVelocity = ⟨-100, 50⟩ ∧
    (PlayerState.handleEvents hookedPlayer noKeys
      ⟨EventType.KeyPressed, Key.Down⟩).mState.kind = StateKind.Falling := by
  have h := (hooked_down_press_drops hookedPlayer noKeys (by decide)).1
  rw [h]
  exact ⟨by decide, by decide, by decide, by decide⟩

/-- C17: in Running (run speed 900) and in Falling (horizontal speed 800),
`update(dt)` with only Left held sets velocity.x to minus the speed and the
facing to left, with only Right held sets velocity.x to plus the speed and the
facing to right, and with neither held leaves velocity and facing as they were.
In all three cases velocity.y, position, collision box, grounded flag, the
kind of the active state and its run speed or jump counter are unchanged; the
state's animation is advanced by `dt`. -/
theorem update_steers_running_and_falling (player : Player) (a : Animation) (kb : Keyboard)
    (dt : ℚ) :
    (player.mState = PlayerState.Running a 900 →
      (kb Key.Left = true → kb Key.Right = false →
        PlayerState.update player kb dt =
          { player with
            mVelocity := ⟨-900, player.mVelocity.y⟩
            mIsFacedRight := false
            mState := PlayerState.Running (a.update dt) 900 }) ∧
      (kb Key.Left = false → kb Key.Right = true →
        PlayerState.update player kb dt =
          { player with
            mVelocity := ⟨900, player.mVelocity.y⟩
            mIsFacedRight := true
            mState := PlayerState.Running (a.update dt) 900 }) ∧
      (kb Key.Left = false → kb Key.Right = false →
        PlayerState.update player kb dt =
          { player with mState := PlayerState.Running (a.update dt) 900 })) ∧
    (∀ j : Nat, player.mState = PlayerState.Falling a j →
      (kb Key.Left = true → kb Key.Right = false →
        PlayerState.update player kb dt =
          { player with
            mVelocity := ⟨-800, player.mVelocity.y⟩
            mIsFacedRight := false
            mState := PlayerState.Falling (a.update dt) j }) ∧
      (kb Key.Left = false → kb Key.Right = true →
        PlayerState.update player kb dt =
          { player with
            mVelocity := ⟨800, player.mVelocity.y⟩
            mIsFacedRight := true
            mState := PlayerState.Falling (a.update dt) j }) ∧
      (kb Key.Left = false → kb Key.Right = false →
        PlayerState.update player kb dt =
          { player with mState := PlayerState.Falling (a.update dt) j })) := by
  rcases player with ⟨pos, vel, fr, box, g, st⟩
  refine ⟨?_, ?_⟩
  · intro h
    simp only at h
    subst h
    refine ⟨?_, ?_, ?_⟩ <;> intro hl hr <;>
      simp [PlayerState.update, Running.update, hl, hr]
  · intro j h
    simp only at h
    subst h
    refine ⟨?_, ?_, ?_⟩ <;> intro hl hr <;>
      simp [PlayerState.update, Falling.update, Falling.kHorizontalVelocity, hl, hr]

/-- C17, witness: with only Left held, one `update` gives `runningPlayer`
velocity (-900, 50) and `fallingPlayer` velocity (-800, 50), both facing left. -/
theorem update_steers_running_and_falling_witness :
    runningPlayer.mState = (Running.Running basePlayer).1 ∧
    (PlayerState.update runningPlayer (fun k => decide (k = Key.Left)) (1 / 60)).mVelocity
      = ⟨-900, 50⟩ ∧
    (PlayerState.update fallingPlayer (fun k => decide (k = Key.Left)) (1 / 60)).mVelocity
      = ⟨-800, 50⟩ ∧
    (PlayerState.update fallingPlayer (fun k => decide (k = Key.Left)) (1 / 60)).mIsFacedRight
      = false := by
  have hr := ((update_steers_running_and_falling runningPlayer _
    (fun k => decide (k = Key.Left)) (1 / 60)).1 rfl).1 (by decide) (by decide)
  have hf := ((update_steers_running_and_falling fallingPlayer _
    (fun k => decide (k = Key.Left)) (1 / 60)).2 0 rfl).1 (by decide) (by decide)
  rw [hr, hf]
  exact ⟨rfl, rfl, rfl, rfl⟩

/-- C18: `attacked()` is a no-op in every state: the player after the call,
with its active state object, position, velocity, facing, collision box and
grounded flag, is the player before the call. -/
theorem attacked_changes_nothing (player : Player) :
    PlayerState.attacked player = player := by
  rcases player with ⟨pos, vel, fr, box, g, st⟩
  cases st <;>
    simp [PlayerState.attacked, Idle.attacked, Running.attacked, Sliding.attacked,
      Falling.attacked, Hooked.attacked, Sitting.attacked]

/-- C19: `startFalling()` installs a newly constructed Falling when Idle,
Running, Sitting or Hooked is active, keeping position and velocity; when
Sliding or Falling is active it changes nothing, so the slide timer and the
extra-jump counter are kept. -/
theorem startFalling_by_state (player : Player) :
    (player.mState.kind = StateKind.Idle ∨ player.mState.kind = StateKind.Running ∨
        player.mState.kind = StateKind.Sitting ∨ player.mState.kind = StateKind.Hooked →
      PlayerState.startFalling player =
        { player with
          mCollisionRect := ⟨-40, -60, 80, 120⟩
          mState := (Falling.Falling player).1 } ∧
      (PlayerState.startFalling player).mState.kind = StateKind.Falling ∧
      (PlayerState.startFalling player).mPosition = player.mPosition ∧
      (PlayerState.startFalling player).mVelocity = player.mVelocity) ∧
    (player.mState.kind = StateKind.Sliding ∨ player.mState.kind = StateKind.Falling →
      PlayerState.startFalling player = player) := by
  rcases player with ⟨pos, vel, fr, box, g, st⟩
  cases st <;>
    simp [PlayerState.startFalling, Idle.startFalling, Running.startFalling,
      Sliding.startFalling, Falling.startFalling, Hooked.startFalling, Sitting.startFalling,
      Player.setStateNew, Player.setState, Falling.Falling, PlayerState.kind]

/-- C19, witness: `startFalling()` takes `runningPlayer` to Falling with its
velocity (500, 50) kept, and leaves `slidingPlayer` as it was. -/
theorem startFalling_by_state_witness :
    runningPlayer.mState.kind = StateKind.Running ∧
    (PlayerState.startFalling runningPlayer).mState.kind = StateKind.Falling ∧
    (PlayerState.startFalling runningPlayer).mVelocity = runningPlayer.mVelocity ∧
    PlayerState.startFalling slidingPlayer = slidingPlayer :=
  ⟨by decide,
    ((startFalling_by_state runningPlayer).1 (Or.inr (Or.inl (by decide)))).2.1,
    ((startFalling_by_state runningPlayer).1 (Or.inr (Or.inl (by decide)))).2.2.2,
    (startFalling_by_state slidingPlayer).2 (Or.inl (by decide))⟩

/-- C20: after any run of `update`, `handleEvents`, `hook`, `attacked`,
`startFalling` and `hitGround` calls that starts from a newly entered state
(whatever the grounded flag is at each call), the collision box is
[-80,-20,160,80] if Sliding is active and [-40,-60,80,120] otherwise; and, from
any configuration, a call that leaves the dynamic type of the active state the
same leaves the collision box the same. -/
theorem collision_box_follows_state (k : StateKind) (p0 : Player)
    (calls : List (Bool × Call)) :
    ((runCalls (p0.setStateNew k.ctor) calls).mState.kind = StateKind.Sliding →
      (runCalls (p0.setStateNew k.ctor) calls).mCollisionRect = ⟨-80, -20, 160, 80⟩) ∧
    ((runCalls (p0.setStateNew k.ctor) calls).mState.kind ≠ StateKind.Sliding →
      (runCalls (p0.setStateNew k.ctor) calls).mCollisionRect = ⟨-40, -60, 80, 120⟩) ∧
    (∀ (player : Player) (c : Call),
      (c.apply player).mState.kind = player.mState.kind →
      (c.apply player).mCollisionRect = player.mCollisionRect) := by
  have h0 : (p0.setStateNew k.ctor).mCollisionRect
      = StateKind.collisionRect (p0.setStateNew k.ctor).mState.kind := by
    cases k <;>
      simp [StateKind.ctor, Player.setStateNew, Player.setState, Idle.Idle, Running.Running,
        Sliding.Sliding, Falling.Falling, Hooked.Hooked, Sitting.Sitting, PlayerState.kind,
        StateKind.collisionRect]
  have h := runCalls_collisionRect calls _ h0
  refine ⟨fun hk => ?_, fun hk => ?_, fun player c hc => ?_⟩
  · rw [h, hk]
    rfl
  · rw [h]
    generalize (runCalls (p0.setStateNew k.ctor) calls).mState.kind = k' at hk
    cases k' <;> first | rfl | exact absurd rfl hk
  · rcases Call.apply_collisionRect c player with h1 | h1
    · exact h1.2
    · exact absurd hc h1.1

/-- C20, witness: from a newly entered Running, an LShift key press followed
by an `update` of 1/60 s leaves Sliding active with box [-80,-20,160,80]; a
further `update` of 1 s while grounded leaves Idle active with box
[-40,-60,80,120]. -/
theorem collision_box_follows_state_witness :
    (runCalls (basePlayer.setStateNew StateKind.Running.ctor)
      [(true, Call.handleEvents noKeys ⟨EventType.KeyPressed, Key.LShift⟩),
       (true, Call.update noKeys (1 / 60))]).mCollisionRect = ⟨-80, -20, 160, 80⟩ ∧
    (runCalls (basePlayer.setStateNew StateKind.Running.ctor)
      [(true, Call.handleEvents noKeys ⟨EventType.KeyPressed, Key.LShift⟩),
       (true, Call.update noKeys (1 / 60)),
       (true, Call.update noKeys 1)]).mCollisionRect = ⟨-40, -60, 80, 120⟩ := by
  refine ⟨(collision_box_follows_state StateKind.Running basePlayer _).1 ?_,
    (collision_box_follows_state StateKind.Running basePlayer _).2.1 ?_⟩
  · simp [runCalls, Call.apply, StateKind.ctor, basePlayer, PlayerState.handleEvents,
      Running.handleEvents, PlayerState.update, Sliding.update, Player.setStateNew,
      Player.setState, Running.Running, Sliding.Sliding, Idle.Idle, Sliding.kSlidingTime,
      PlayerState.kind, noKeys]
    norm_num
  · simp [runCalls, Call.apply, StateKind.ctor, basePlayer, PlayerState.handleEvents,
      Running.handleEvents, PlayerState.update, Sliding.update, Player.setStateNew,
      Player.setState, Running.Running, Sliding.Sliding, Idle.Idle, Sliding.kSlidingTime,
      PlayerState.kind, noKeys]
    norm_num
    decide

/-- C21 (as amended): `hook`, `attacked`, `startFalling` and `hitGround`, and
every `handleEvents` call other than a Space key press and a Down key press in
Hooked, either change nothing or do nothing but install a new state, so the
only velocity change is the one its constructor makes. A Space key press keeps
velocity.x and either keeps velocity.y or sets it to -1500 or to -1000; a Down
key press in Hooked sets velocity.x to -100 or +100 by facing and keeps
velocity.y. -/
theorem velocity_writes_outside_update (player : Player) :
    (∀ c : Call, (c = Call.hook ∨ c = Call.attacked ∨ c = Call.startFalling ∨
        c = Call.hitGround) →
      c.apply player = player ∨ ∃ k : StateKind, c.apply player = player.setStateNew k.ctor) ∧
    (∀ (kb : Keyboard) (event : Event),
      ¬ (event.type = EventType.KeyPressed ∧ event.code = Key.Space) →
      ¬ (event.type = EventType.KeyPressed ∧ event.code = Key.Down ∧
          player.mState.kind = StateKind.Hooked) →
      PlayerState.handleEvents player kb event = player ∨
        ∃ k : StateKind, PlayerState.handleEvents player kb event
          = player.setStateNew k.ctor) ∧
    (∀ kb : Keyboard,
      (PlayerState.handleEvents player kb spacePressed).mVelocity.x = player.mVelocity.x ∧
      ((PlayerState.handleEvents player kb spacePressed).mVelocity.y = player.mVelocity.y ∨
       (PlayerState.handleEvents player kb spacePressed).mVelocity.y = -1500 ∨
       (PlayerState.handleEvents player kb spacePressed).mVelocity.y = -1000)) ∧
    (player.mState.kind = StateKind.Hooked → ∀ kb : Keyboard,
      (PlayerState.handleEvents player kb ⟨EventType.KeyPressed, Key.Down⟩).mVelocity
        = ⟨if player.mIsFacedRight = true then -100 else 100, player.mVelocity.y⟩) := by
  rcases player with ⟨pos, vel, fr, box, g, st⟩
  refine ⟨?_, ?_, ?_, ?_⟩
  · rintro c (rfl | rfl | rfl | rfl)
    · cases st
      case Falling a j =>
        exact Or.inr ⟨StateKind.Hooked, rfl⟩
      all_goals exact Or.inl rfl
    · cases st <;> exact Or.inl rfl
    · cases st
      case Sliding a t => exact Or.inl rfl
      case Falling a j => exact Or.inl rfl
      all_goals exact Or.inr ⟨StateKind.Falling, rfl⟩
    · cases st
      case Falling a j => exact Or.inr ⟨StateKind.Idle, rfl⟩
      case Hooked a => exact Or.inr ⟨StateKind.Idle, rfl⟩
      all_goals exact Or.inl rfl
  · intro kb event hs hd
    rcases event with ⟨ty, code⟩
    cases st
    case Idle a =>
      cases ty <;> cases code <;> simp at hs <;>
        first
        | exact Or.inl rfl
        | exact Or.inr ⟨StateKind.Running, rfl⟩
        | exact Or.inr ⟨StateKind.Sitting, rfl⟩
    case Running a s =>
      cases ty <;> cases code <;> simp at hs <;>
        by_cases hl : kb Key.Left <;> by_cases hr : kb Key.Right <;>
        first
        | (left
           simp [PlayerState.handleEvents, Running.handleEvents, hl, hr]
           done)
        | (right
           refine ⟨StateKind.Sliding, ?_⟩
           simp [PlayerState.handleEvents, Running.handleEvents, StateKind.ctor, hl, hr]
           done)
        | (right
           refine ⟨StateKind.Idle, ?_⟩
           simp [PlayerState.handleEvents, Running.handleEvents, StateKind.ctor,
             Player.setStateNew, Player.setState, Idle.Idle, hl, hr])
    case Sliding a t =>
      cases ty <;> cases code <;> simp at hs <;>
        first
        | exact Or.inl rfl
        | exact Or.inr ⟨StateKind.Running, rfl⟩
    case Falling a j =>
      cases ty <;> cases code <;> simp at hs <;>
        (left; simp [PlayerState.handleEvents, Falling.handleEvents])
    case Hooked a =>
      cases ty <;> cases code <;> simp at hs <;> simp [PlayerState.kind] at hd <;>
        exact Or.inl rfl
    case Sitting a =>
      cases ty <;> cases code <;> simp at hs <;>
        by_cases hl : kb Key.Left <;> by_cases hr : kb Key.Right <;>
        first
        | (left
           simp [PlayerState.handleEvents, Sitting.handleEvents, hl, hr]
           done)
        | (right
           refine ⟨StateKind.Idle, ?_⟩
           simp [PlayerState.handleEvents, Sitting.handleEvents, StateKind.ctor,
             Player.setStateNew, Player.setState, Idle.Idle, hl, hr])
  · intro kb
    cases st
    case Falling a j =>
      by_cases hj : j = 0 <;>
        simp [PlayerState.handleEvents, Falling.handleEvents, spacePressed, PlayerState.jump,
          PlayerState.startFalling, Falling.startFalling, PlayerState.kSubJumpingVelocity, hj]
    case Sliding a t =>
      cases g <;>
        simp [PlayerState.handleEvents, Sliding.handleEvents, spacePressed, PlayerState.jump,
          PlayerState.startFalling, Sliding.startFalling, Player.setStateNew, Player.setState,
          Falling.Falling, PlayerState.kJumpingVelocity]
    all_goals
      simp [PlayerState.handleEvents, Idle.handleEvents, Running.handleEvents,
        Hooked.handleEvents, Sitting.handleEvents, spacePressed, PlayerState.jump,
        PlayerState.startFalling, Idle.startFalling, Running.startFalling,
        Hooked.startFalling, Sitting.startFalling, Player.setStateNew, Player.setState,
        Falling.Falling, PlayerState.kJumpingVelocity]
  · intro h kb
    cases st <;> simp [PlayerState.kind] at h
    simp [PlayerState.handleEvents, Hooked.handleEvents, Player.setStateNew, Player.setState,
      Falling.Falling]

/-- C21, witness: `hitGround()` on `fallingPlayer` does nothing but install
Idle; a Right release with no key held does the same on `runningPlayer`. -/
theorem velocity_writes_outside_update_witness :
    (Call.hitGround.apply fallingPlayer = fallingPlayer ∨
      ∃ k : StateKind, Call.hitGround.apply fallingPlayer = fallingPlayer.setStateNew k.ctor) ∧
    (PlayerState.handleEvents runningPlayer noKeys ⟨EventType.KeyReleased, Key.Right⟩
        = runningPlayer ∨
      ∃ k : StateKind,
        PlayerState.handleEvents runningPlayer noKeys ⟨EventType.KeyReleased, Key.Right⟩
          = runningPlayer.setStateNew k.ctor) :=
  ⟨(velocity_writes_outside_update fallingPlayer).1 Call.hitGround
      (Or.inr (Or.inr (Or.inr rfl))),
    (velocity_writes_outside_update runningPlayer).2.1 noKeys
      ⟨EventType.KeyReleased, Key.Right⟩ (by decide) (by decide)⟩

/-- C21, counterexample: on `fallingPlayer`, whose velocity is (500, 50), a
Space key press leaves velocity (500, -1000) although Falling stays the active
state; the new velocity is neither the old one nor the one the constructor of
any state would have left. -/
theorem falling_jump_writes_velocity :
    fallingPlayer.mVelocity = ⟨500, 50⟩ ∧
    (PlayerState.handleEvents fallingPlayer noKeys spacePressed).mVelocity = ⟨500, -1000⟩ ∧
    (PlayerState.handleEvents fallingPlayer noKeys spacePressed).mState.kind
      = StateKind.Falling ∧
    ¬ (∀ (player : Player) (kb : Keyboard) (event : Event),
        (PlayerState.handleEvents player kb event).mVelocity = player.mVelocity ∨
        ∃ k : StateKind,
          (PlayerState.handleEvents player kb event).mVelocity
            = (k.ctor player).2.mVelocity) := by
  have hv : (PlayerState.handleEvents fallingPlayer noKeys spacePressed).mVelocity
      = ⟨500, -1000⟩ := by decide
  refine ⟨by decide, hv, by decide, fun hall => ?_⟩
  rcases hall fallingPlayer noKeys spacePressed with h | ⟨k, h⟩
  · rw [hv] at h
    revert h
    decide
  · rw [hv] at h
    cases k <;>
      simp [StateKind.ctor, fallingPlayer, basePlayer, Player.setStateNew, Player.setState,
        Idle.Idle, Running.Running, Sliding.Sliding, Falling.Falling, Hooked.Hooked,
        Sitting.Sitting] at h <;>
      norm_num at h

/-- C23: a key release in Idle, Sliding, Falling or Hooked, a Down key press in
any state other than Hooked, a Left or Right key press in Running, Falling or
Hooked, and `hitGround()` in Idle, Running, Sliding or Sitting each return the
player exactly as it was. The functions are total, so none of these calls can
fail. -/
theorem unhandled_combinations_change_nothing (player : Player) (kb : Keyboard) :
    (player.mState.kind = StateKind.Idle ∨ player.mState.kind = StateKind.Sliding ∨
        player.mState.kind = StateKind.Falling ∨ player.mState.kind = StateKind.Hooked →
      ∀ code : Key,
        PlayerState.handleEvents player kb ⟨EventType.KeyReleased, code⟩ = player) ∧
    (player.mState.kind ≠ StateKind.Hooked →
      PlayerState.handleEvents player kb ⟨EventType.KeyPressed, Key.Down⟩ = player) ∧
    (player.mState.kind = StateKind.Running ∨ player.mState.kind = StateKind.Falling ∨
        player.mState.kind = StateKind.Hooked →
      PlayerState.handleEvents player kb ⟨EventType.KeyPressed, Key.Left⟩ = player ∧
      PlayerState.handleEvents player kb ⟨EventType.KeyPressed, Key.Right⟩ = player) ∧
    (player.mState.kind = StateKind.Idle ∨ player.mState.kind = StateKind.Running ∨
        player.mState.kind = StateKind.Sliding ∨ player.mState.kind = StateKind.Sitting →
      PlayerState.hitGround player = player) := by
  rcases player with ⟨pos, vel, fr, box, g, st⟩
  refine ⟨?_, ?_, ?_, ?_⟩
  · intro h code
    cases st <;> simp [PlayerState.kind] at h <;>
      simp [PlayerState.handleEvents, Idle.handleEvents, Sliding.handleEvents,
        Falling.handleEvents, Hooked.handleEvents]
  · intro h
    cases st <;> simp [PlayerState.kind] at h <;>
      simp [PlayerState.handleEvents, Idle.handleEvents, Running.handleEvents,
        Sliding.handleEvents, Falling.handleEvents, Sitting.handleEvents]
  · intro h
    cases st <;> simp [PlayerState.kind] at h <;>
      simp [PlayerState.handleEvents, Running.handleEvents, Falling.handleEvents,
        Hooked.handleEvents]
  · intro h
    cases st <;> simp [PlayerState.kind] at h <;>
      simp [PlayerState.hitGround, Idle.hitGround, Running.hitGround, Sliding.hitGround,
        Sitting.hitGround]

/-- C23, witness: a Space release leaves `fallingPlayer` as it was, a Down
press leaves `runningPlayer` as it was, and `hitGround()` leaves
`slidingPlayer` as it was. -/
theorem unhandled_combinations_change_nothing_witness :
    PlayerState.handleEvents fallingPlayer noKeys ⟨EventType.KeyReleased, Key.Space⟩
      = fallingPlayer ∧
    PlayerState.handleEvents runningPlayer noKeys ⟨EventType.KeyPressed, Key.Down⟩
      = runningPlayer ∧
    PlayerState.hitGround slidingPlayer = slidingPlayer :=
  ⟨(unhandled_combinations_change_nothing fallingPlayer noKeys).1
      (Or.inr (Or.inr (Or.inl (by decide)))) Key.Space,
    (unhandled_combinations_change_nothing runningPlayer noKeys).2.1 (by decide),
    (unhandled_combinations_change_nothing slidingPlayer noKeys).2.2.2
      (Or.inr (Or.inr (Or.inl (by decide))))⟩

/-- C26: with both Left and Right held, `update(dt)` gives velocity.x = +900
and facing right in Running (run speed 900) and velocity.x = +800 and facing
right in Falling, whatever velocity and facing were before. -/
theorem both_keys_held_resolve_right (player : Player) (a : Animation) (kb : Keyboard)
    (dt : ℚ) (hl : kb Key.Left = true) (hr : kb Key.Right = true) :
    (player.mState = PlayerState.Running a 900 →
      (PlayerState.update player kb dt).mVelocity.x = 900 ∧
      (PlayerState.update player kb dt).mIsFacedRight = true) ∧
    (∀ j : Nat, player.mState = PlayerState.Falling a j →
      (PlayerState.update player kb dt).mVelocity.x = 800 ∧
      (PlayerState.update player kb dt).mIsFacedRight = true) := by
  rcases player with ⟨pos, vel, fr, box, g, st⟩
  refine ⟨?_, ?_⟩
  · intro h
    simp only at h
    subst h
    simp [PlayerState.update, Running.update, hl, hr]
  · intro j h
    simp only at h
    subst h
    simp [PlayerState.update, Falling.update, Falling.kHorizontalVelocity, hl, hr]

/-- C26, witness: with every key held, one `update` gives `runningPlayer`
velocity.x = 900 and `fallingPlayer` velocity.x = 800, both facing right. -/
theorem both_keys_held_resolve_right_witness :
    (PlayerState.update runningPlayer (fun _ => true) (1 / 60)).mVelocity.x = 900 ∧
    (PlayerState.update fallingPlayer (fun _ => true) (1 / 60)).mVelocity.x = 800 ∧
    (PlayerState.update fallingPlayer (fun _ => true) (1 / 60)).mIsFacedRight = true :=
  ⟨((both_keys_held_resolve_right runningPlayer _ (fun _ => true) (1 / 60) rfl rfl).1 rfl).1,
    ((both_keys_held_resolve_right fallingPlayer _ (fun _ => true) (1 / 60) rfl rfl).2 0
      rfl).1,
    ((both_keys_held_resolve_right fallingPlayer _ (fun _ => true) (1 / 60) rfl rfl).2 0
      rfl).2⟩

/-- C24 (as amended): in Sliding's handler for a Space key press while
grounded, the shared `jump` helper is called first, its `startFalling` runs on
the Sliding object that is still the active state (and does nothing), and only
then is the active state replaced by Falling; nothing is done after that
`setState`. -/
theorem sliding_space_jumps_then_replaces (player : Player) (kb : Keyboard)
    (h : player.mState.kind = StateKind.Sliding) (hg : player.mIsColliding = true) :
    (PlayerState.handleEventsT player kb spacePressed).2
      = [Step.use Member.jump, Step.use Member.startFalling,
          Step.setState StateKind.Falling] ∧
    (PlayerState.handleEventsT player kb spacePressed).1
      = PlayerState.handleEvents player kb spacePressed ∧
    (PlayerState.jumpT player PlayerState.kJumpingVelocity).1.mState = player.mState := by
  rcases player with ⟨pos, vel, fr, box, g, st⟩
  cases st <;> simp [PlayerState.kind] at h
  simp only at hg
  subst hg
  refine ⟨?_, ?_, ?_⟩
  · simp [PlayerState.handleEventsT, Sliding.handleEventsT, spacePressed,
      PlayerState.callJumpT, PlayerState.jumpT, PlayerState.startFallingT,
      Sliding.startFallingT, Step.seq, Player.setStateNewT]
  · exact Call.applyT_fst (Call.handleEvents kb spacePressed) _
  · simp [PlayerState.jumpT, PlayerState.startFallingT, Sliding.startFallingT, Step.seq]

/-- C24, witness: on the grounded `slidingPlayer` the steps of a Space key press
are: call `jump`, call `startFalling`, `setState(new Falling)`. -/
theorem sliding_space_jumps_then_replaces_witness :
    slidingPlayer.mState.kind = StateKind.Sliding ∧
    slidingPlayer.mIsColliding = true ∧
    (PlayerState.handleEventsT slidingPlayer noKeys spacePressed).2
      = [Step.use Member.jump, Step.use Member.startFalling,
          Step.setState StateKind.Falling] :=
  ⟨by decide, by decide,
    (sliding_space_jumps_then_replaces slidingPlayer noKeys (by decide) (by decide)).1⟩

/-- C24, counterexample: on the grounded `slidingPlayer` the call of `jump` and
the call of `startFalling` both come before `setState(new Falling)` in the
steps of a Space key press; there is no split of the steps with a `setState`
first and a call of `startFalling` after it. -/
theorem sliding_space_does_not_replace_first :
    (PlayerState.handleEventsT slidingPlayer noKeys spacePressed).2
      = [Step.use Member.jump, Step.use Member.startFalling,
          Step.setState StateKind.Falling] ∧
    ¬ ∃ (pre post : List Step) (k : StateKind),
        (PlayerState.handleEventsT slidingPlayer noKeys spacePressed).2
          = pre ++ Step.setState k :: post ∧
        Step.use Member.startFalling ∈ post := by
  have ht : (PlayerState.handleEventsT slidingPlayer noKeys spacePressed).2
      = [Step.use Member.jump, Step.use Member.startFalling,
          Step.setState StateKind.Falling] := by decide
  refine ⟨ht, ?_⟩
  rintro ⟨pre, post, k, heq, hmem⟩
  rw [ht] at heq
  rcases pre with _ | ⟨x, _ | ⟨y, _ | ⟨z, rest⟩⟩⟩ <;>
    simp only [List.nil_append, List.cons_append, List.cons.injEq, reduceCtorEq, false_and,
      and_false] at heq
  · obtain ⟨-, -, -, hpost⟩ := heq
    rw [← hpost] at hmem
    simp at hmem
  · obtain ⟨-, -, -, hnil⟩ := heq
    simp at hnil

/-- C25: on every execution path of `update`, `handleEvents`, `hook`,
`attacked`, `startFalling`, `hitGround` and `jump`, nothing follows a
`setState`: no member of the superseded state object is read or written, no
member function is called on it, and no second `setState` is made. The recorded
calls compute the same player as the plain ones. -/
theorem no_use_after_setState (player : Player) (c : Call) (v : ℚ) :
    Step.nothingAfterSetState (c.applyT player).2 = true ∧
    Step.nothingAfterSetState (PlayerState.jumpT player v).2 = true ∧
    (c.applyT player).1 = c.apply player := by
  refine ⟨?_, ?_, Call.applyT_fst c player⟩
  · rcases player with ⟨pos, vel, fr, box, g, st⟩
    cases c with
    | update kb dt =>
      cases st with
      | Sliding a t =>
        by_cases hc : t - dt < 0 <;> cases g <;>
          simp [Call.applyT, PlayerState.updateT, Sliding.updateT, Step.seq,
            Player.setStateNewT, Step.nothingAfterSetState, hc]
      | _ =>
        by_cases hl : kb Key.Left <;> by_cases hr : kb Key.Right <;>
          simp [Call.applyT, PlayerState.updateT, Idle.updateT, Running.updateT,
            Falling.updateT, Hooked.updateT, Sitting.updateT, Step.seq, Player.setStateNewT,
            Step.nothingAfterSetState, hl, hr]
    | handleEvents kb event =>
      rcases event with ⟨ty, code⟩
      cases st with
      | Falling a j =>
        by_cases hj : j = 0 <;> cases ty <;> cases code <;>
          simp [Call.applyT, PlayerState.handleEventsT, Falling.handleEventsT,
            PlayerState.callJumpT, PlayerState.jumpT, PlayerState.startFallingT,
            Falling.startFallingT, Step.seq, Step.nothingAfterSetState, hj]
      | _ =>
        cases ty <;> cases code <;> cases g <;>
          by_cases hl : kb Key.Left <;> by_cases hr : kb Key.Right <;>
          simp [Call.applyT, PlayerState.handleEventsT, Idle.handleEventsT,
            Running.handleEventsT, Sliding.handleEventsT, Hooked.handleEventsT,
            Sitting.handleEventsT, PlayerState.callJumpT, PlayerState.jumpT,
            PlayerState.startFallingT, Idle.startFallingT, Running.startFallingT,
            Sliding.startFallingT, Hooked.startFallingT, Sitting.startFallingT, Step.seq,
            Player.setStateNewT, Player.setStateNew, Player.setState, StateKind.ctor,
            Running.Running, Step.nothingAfterSetState, hl, hr]
    | hook =>
      cases st <;>
        simp [Call.applyT, PlayerState.hookT, Player.setStateNewT, Step.nothingAfterSetState]
    | attacked =>
      simp [Call.applyT, PlayerState.attackedT, Step.nothingAfterSetState]
    | startFalling =>
      cases st <;>
        simp [Call.applyT, PlayerState.startFallingT, Idle.startFallingT,
          Running.startFallingT, Sliding.startFallingT, Falling.startFallingT,
          Hooked.startFallingT, Sitting.startFallingT, Player.setStateNewT,
          Step.nothingAfterSetState]
    | hitGround =>
      cases st <;>
        simp [Call.applyT, PlayerState.hitGroundT, Player.setStateNewT,
          Step.nothingAfterSetState]
  · rcases player with ⟨pos, vel, fr, box, g, st⟩
    cases st <;>
      simp [PlayerState.jumpT, PlayerState.startFallingT, Idle.startFallingT,
        Running.startFallingT, Sliding.startFallingT, Falling.startFallingT,
        Hooked.startFallingT, Sitting.startFallingT, Step.seq, Player.setStateNewT,
        Step.nothingAfterSetState]

/-- C28: in a tree whose nodes all start `Blocked` and whose root is then
unblocked, after any run of left and right clicks at arbitrary coordinates,
delivered to the root or through the `AbstructSkillTree` that owns it, every
node that is not `Blocked` has an `Activated` parent, and below every node that
is not `Activated` the whole subtree is `Blocked`. -/
theorem unlocking_invariant (root : Node) (clicks : List (Vector2f × Node.MouseState))
    (name : String) (maxPoints : Nat) (h : root.allBlocked = true) :
    (root.unblock.runClicks clicks).parentsActivated = true ∧
    (root.unblock.runClicks clicks).subtreesLocked = true ∧
    ((AbstructSkillTree.AbstructSkillTree root.unblock name maxPoints).runClicks
      clicks).root.parentsActivated = true ∧
    ((AbstructSkillTree.AbstructSkillTree root.unblock name maxPoints).runClicks
      clicks).root.subtreesLocked = true := by
  have h0 := Node.subtreesLocked_unblock_of_allBlocked root h
  have h1 := Node.subtreesLocked_runClicks clicks _ h0
  have h2 := SkillTree.runClicks_keeps_locks clicks
    (AbstructSkillTree.AbstructSkillTree root.unblock name maxPoints) h0
  exact ⟨Node.parentsActivated_of_subtreesLocked _ h1, h1,
    Node.parentsActivated_of_subtreesLocked _ h2, h2⟩

/-- C28, witness: in `sampleSkillRoot` with its root unblocked, after
activating the root and its child and then deactivating the root by right
clicks, every node that is not `Blocked` has an `Activated` parent. -/
theorem unlocking_invariant_witness :
    (sampleSkillRoot.unblock.runClicks
      [(⟨400, 500⟩, Node.MouseState.LeftButton), (⟨400, 380⟩, Node.MouseState.LeftButton),
       (⟨400, 500⟩, Node.MouseState.RightButton)]).parentsActivated = true :=
  (unlocking_invariant sampleSkillRoot
    [(⟨400, 500⟩, Node.MouseState.LeftButton), (⟨400, 380⟩, Node.MouseState.LeftButton),
     (⟨400, 500⟩, Node.MouseState.RightButton)] "Rogue\n" 10 (by decide)).1

/-- C29: an `AccumulateNode` with `maxLevel` at least 1, in every state reached
from construction (`Blocked`, `currentLevel` 0, any children) by `block`,
`unblock`, left clicks and right clicks, has `currentLevel ≤ maxLevel`, and
`currentLevel ≥ 1` when it is `Activated`; so the `size_t` decrement of a right
click, made only on an `Activated` node whose level is not 1, yields
`currentLevel - 1` without wrapping, and the result is at least 1. -/
theorem accumulate_level_stays_in_range (cs : List Node) (p : Vector2f) (m : Nat)
    (t : String) (ops : List NodeOp) (hm : 1 ≤ m) (hm64 : m < 2 ^ 64) :
    ∃ cs' s' l' t',
      (Node.AccumulateNode cs p Node.State.Blocked m 0 t).runOps ops
        = .AccumulateNode cs' p s' m l' t' ∧
      l' ≤ m ∧
      (s' = Node.State.Activated → 1 ≤ l') ∧
      (s' = Node.State.Activated → l' ≠ 1 →
        size_t.wrap (l' + (2 ^ 64 - 1)) = l' - 1 ∧ 1 ≤ l' - 1) := by
  obtain ⟨cs', s', l', t', he, hl, hs⟩ :=
    Node.runOps_accumulateNode ops p m hm hm64 cs Node.State.Blocked 0 t (Nat.zero_le _)
      (by simp)
  refine ⟨cs', s', l', t', he, hl, hs, fun ha hne => ?_⟩
  have h1 := hs ha
  exact ⟨size_t.wrap_pred h1 (by omega), by omega⟩

/-- C29, witness: an `AccumulateNode` of `maxLevel` 3 that is unblocked, left
clicked five times and right clicked once is an `AccumulateNode` of `maxLevel`
3 with `currentLevel` at most 3. -/
theorem accumulate_level_stays_in_range_witness :
    ∃ cs s l t,
      (Node.AccumulateNode [] ⟨400, 500⟩ Node.State.Blocked 3 0 "0/3").runOps
          [NodeOp.unblock, NodeOp.leftMouseButtonPressed ⟨400, 500⟩,
           NodeOp.leftMouseButtonPressed ⟨400, 500⟩, NodeOp.leftMouseButtonPressed ⟨400, 500⟩,
           NodeOp.leftMouseButtonPressed ⟨400, 500⟩, NodeOp.leftMouseButtonPressed ⟨400, 500⟩,
           NodeOp.rightMouseButtonPressed ⟨400, 500⟩]
        = Node.AccumulateNode cs ⟨400, 500⟩ s 3 l t ∧ l ≤ 3 :=
  let ⟨cs, s, l, t, h, hl, _⟩ :=
    accumulate_level_stays_in_range [] ⟨400, 500⟩ 3 "0/3"
      [NodeOp.unblock, NodeOp.leftMouseButtonPressed ⟨400, 500⟩,
       NodeOp.leftMouseButtonPressed ⟨400, 500⟩, NodeOp.leftMouseButtonPressed ⟨400, 500⟩,
       NodeOp.leftMouseButtonPressed ⟨400, 500⟩, NodeOp.leftMouseButtonPressed ⟨400, 500⟩,
       NodeOp.rightMouseButtonPressed ⟨400, 500⟩] (by decide) (by norm_num)
  ⟨cs, s, l, t, h, hl⟩

/-- C30: for an `AbstructSkillTree` in which no click position hits more than
one node, every `Activated` `AccumulateNode` has `currentLevel` at least 1 and
the points of the nodes add up to less than `2 ^ 64` (`maxPoints` being a
`size_t`): if `currPoints` equals the root's `getNodeStatus()` and
`currPoints ≤ maxPoints` before `onMousePressed`, then `currPoints ≤ maxPoints`
after it, for a left and for a right click, and the same conditions hold
again; and when `currPoints == maxPoints` a left click leaves the whole tree of
nodes as it was. -/
theorem skill_point_cap (tree : AbstructSkillTree) (mouseCoord : Vector2f)
    (state : Node.MouseState)
    (hhit : ∀ pos : Vector2f, tree.root.hitCount pos ≤ 1)
    (hcur : tree.currPoints = tree.root.getNodeStatus)
    (hle : tree.currPoints ≤ tree.maxPoints)
    (hmax : tree.maxPoints < 2 ^ 64)
    (hlev : tree.root.levelsPositive = true)
    (hsum : tree.root.points < 2 ^ 64) :
    (tree.onMousePressed mouseCoord state).currPoints ≤ tree.maxPoints ∧
    (tree.onMousePressed mouseCoord state).maxPoints = tree.maxPoints ∧
    (tree.onMousePressed mouseCoord state).currPoints
      = (tree.onMousePressed mouseCoord state).root.getNodeStatus ∧
    (tree.onMousePressed mouseCoord state).root.levelsPositive = true ∧
    (tree.onMousePressed mouseCoord state).root.points < 2 ^ 64 ∧
    (tree.currPoints = tree.maxPoints →
      (tree.onMousePressed mouseCoord Node.MouseState.LeftButton).root = tree.root) := by
  have h := SkillTree.capped_onMousePressed tree mouseCoord state
    ⟨hhit, hcur, hle, hmax, hlev, hsum⟩
  obtain ⟨⟨-, h2, h3, -, h5, h6⟩, h7⟩ := h
  refine ⟨by omega, h7, h2, h5, h6, ?_⟩
  intro he
  simp [AbstructSkillTree.onMousePressed, he]

/-- C30, witness: the tree built over `sampleSkillRoot` with ten points to
spend has `currPoints ≤ 10` after a left click on its root. -/
theorem skill_point_cap_witness :
    ((AbstructSkillTree.AbstructSkillTree sampleSkillRoot.unblock "Rogue\n" 10).onMousePressed
      ⟨400, 500⟩ Node.MouseState.LeftButton).currPoints ≤ 10 :=
  (skill_point_cap (AbstructSkillTree.AbstructSkillTree sampleSkillRoot.unblock "Rogue\n" 10)
    ⟨400, 500⟩ Node.MouseState.LeftButton
    (by
      intro pos
      simp only [AbstructSkillTree.AbstructSkillTree, sampleSkillRoot,
        AccumulateNode.AccumulateNode, HitNode.HitNode, Node.addChild, Node.unblock,
        List.nil_append, Node.hitCount, Node.hitCountAll, Node.collisionTest,
        Bool.and_eq_true, decide_eq_true_eq, Nat.add_zero]
      split_ifs with h1 h2 h3 h2 h3 h2 h3 <;> first
        | omega
        | (exfalso
           have ha := abs_lt.mp h1.2
           nlinarith [sq_nonneg (400 - pos.x), sq_nonneg (350 - pos.x)])
        | (exfalso
           nlinarith [sq_nonneg (400 - pos.x), sq_nonneg (350 - pos.x),
             sq_nonneg (380 - pos.y), sq_nonneg (310 - pos.y)]))
    rfl (by decide) (by norm_num [AbstructSkillTree.AbstructSkillTree]) (by decide)
    (by decide)).1

/-- C30, counterexample: two trees in which no position hits two nodes,
`currPoints` equals the root's `getNodeStatus()` and `currPoints ≤ maxPoints`,
and one click leaves `currPoints = 2 ^ 64 - 1`, above `maxPoints = 10`: a right
click on the `Activated` `AccumulateNode` of `levelZeroTree`, whose level 0 is
decremented, and a left click on the root of `overflowTree`, whose points add
up to `2 ^ 64` before the click. -/
theorem skill_point_cap_fails_on_unreached_states :
    ((∀ pos : Vector2f, levelZeroTree.root.hitCount pos ≤ 1) ∧
      levelZeroTree.currPoints = levelZeroTree.root.getNodeStatus ∧
      levelZeroTree.currPoints ≤ levelZeroTree.maxPoints ∧
      (levelZeroTree.onMousePressed ⟨400, 500⟩ Node.MouseState.RightButton).currPoints
        = 2 ^ 64 - 1 ∧
      ¬ (levelZeroTree.onMousePressed ⟨400, 500⟩ Node.MouseState.RightButton).currPoints
        ≤ levelZeroTree.maxPoints) ∧
    ((∀ pos : Vector2f, overflowTree.root.hitCount pos ≤ 1) ∧
      overflowTree.currPoints = overflowTree.root.getNodeStatus ∧
      overflowTree.currPoints ≤ overflowTree.maxPoints ∧
      (overflowTree.onMousePressed ⟨400, 500⟩ Node.MouseState.LeftButton).currPoints
        = 2 ^ 64 - 1 ∧
      ¬ (overflowTree.onMousePressed ⟨400, 500⟩ Node.MouseState.LeftButton).currPoints
        ≤ overflowTree.maxPoints) := by
  have e1 : (levelZeroTree.onMousePressed ⟨400, 500⟩ Node.MouseState.RightButton).currPoints
      = 2 ^ 64 - 1 := by
    simp [levelZeroTree, AbstructSkillTree.onMousePressed,
      Node.rightMouseButtonPressed_AccumulateNode, Node.collisionTest, Node.getNodeStatus,
      Node.sumNodeStatus, size_t.wrap]
  have e2 : (overflowTree.onMousePressed ⟨400, 500⟩ Node.MouseState.LeftButton).currPoints
      = 2 ^ 64 - 1 := by
    simp [overflowTree, AbstructSkillTree.onMousePressed,
      Node.leftMouseButtonPressed_HitNode, Node.leftMouseButtonPressed_AccumulateNode,
      Node.collisionTest, Node.getNodeStatus, Node.blockAll, Node.block,
      Node.sumNodeStatus, size_t.wrap]
  refine ⟨⟨?_, by decide, by decide, e1, ?_⟩, ⟨?_, by decide, by decide, e2, ?_⟩⟩
  · intro pos
    simp only [levelZeroTree, Node.hitCount, Node.hitCountAll, Nat.add_zero]
    split <;> omega
  · rw [e1]
    decide
  · intro pos
    simp only [overflowTree, Node.hitCount, Node.hitCountAll, Node.collisionTest,
      Bool.and_eq_true, decide_eq_true_eq, Nat.add_zero]
    split_ifs with h1 h2 <;> first
      | omega
      | (exfalso
         have ha := abs_lt.mp h2.2
         nlinarith [sq_nonneg (400 - pos.x)])
  · rw [e2]
    decide
